import Mathlib

/-!
# Verification of the soulful-space-ambient audio engine

Shallow embedding of `src/utils/ambientPlayer.js` (the generative ambient
audio scheduling engine) and proofs of the frozen claims about it.

Modelling conventions:

* The module-scoped mutable variables of the JS file, together with the
  runtime environment they interact with, become one explicit state record
  `World`: the audio nodes (`ctx`, `masterGain`, `analyser` as presence
  flags), the two registries (`activeOscillators`, `activeTimers`), the
  parameter store, the set of pending `setTimeout` callbacks (`pending`),
  the set of already-cleared timer ids (`cancelled`), a fresh-id counter,
  the `localStorage` key-value store, and an append-only event log.
* JS numbers become `ℚ` (the engine only does exact decimal arithmetic on
  frequencies, gains and millisecond delays; IEEE-754 rounding plays no
  role in any claim).
* `setTimeout(cb, d)` becomes: allocate a fresh positive id, append the
  callback (as first-order data, `Callback`) to `pending`, and mirror
  whatever the source pushes onto `activeTimers`. `clearTimeout(id)`
  removes the id from `pending` and records it in `cancelled`. A timer can
  only fire while it is in `pending`.
* `Math.random()` draws become reads from an explicit tape `Nat → ℚ`;
  every theorem quantifies over the tape.
* Web-audio gain automation is modelled at its settled value: reading
  `gain.value` returns the target of the last scheduled automation
  (`masterGainValue`), and fade ramps applied to units are recorded in the
  event log as `Event.fade`/`Event.stopOsc` with their relative durations.
* `audioContext.currentTime` dereferences are faults when the context is
  absent; functions containing an unguarded dereference return
  `Option World` with `none` as the fault.
* The `await audioContext.resume()` in `startAmbient` is abstracted into a
  boolean parameter `resumeOk`: `false` models the catch branch returning
  early.
-/

set_option linter.unusedVariables false

namespace AmbientPlayer

/-- One entry of the JS `activeTimers` array: either a plain numeric
`setTimeout` id, or the tagged object `\x7b id, type \x7d` used for
arpeggiator next-note timers. -/
inductive RegTimer where
  | plain (id : Nat)
  | tagged (id : Nat) (tag : String)
deriving DecidableEq, Repr

/-- The `setTimeout` id held by a registry entry. -/
def RegTimer.timerId : RegTimer → Nat
  | .plain i => i
  | .tagged i _ => i

/-- Is this registry entry the tagged arpeggiator next-note form
(`typeof timer === "object" && timer.type === "arpeggio_note"`)? -/
def RegTimer.isArpNote : RegTimer → Bool
  | .plain _ => false
  | .tagged _ tag => tag == "arpeggio_note"

/-- One entry of the JS `activeOscillators` array: the oscillator object
identity (a fresh id, used by self-cleanup filters comparing
`item.osc !== osc`) and its layer kind tag. -/
structure UnitEntry where
  id : Nat
  type : String
deriving DecidableEq, Repr

/-- A scheduled callback, as first-order data.  Each constructor is one of
the closures the source passes to `setTimeout`; the arguments are the
mutable closure variables it captured at scheduling time. -/
inductive Callback where
  | chordProgression (chordIndex : Nat)
  | playBassNote (noteIndex : Nat)
  | playPhrase (phraseIndex : Nat)
  | melodyNote (freq : ℚ)
  | melodyCleanup (oscId : Nat)
  | playBeatPair
  | heartbeatCleanup (oscId : Nat)
  | playArpNote (arpNotes : List ℚ) (noteIndex : Nat)
  | arpCleanup (oscId : Nat)
deriving DecidableEq, Repr

/-- The layer a scheduled callback belongs to. -/
def layerOfCallback : Callback → String
  | .chordProgression _ => "pad"
  | .playBassNote _ => "bass"
  | .playPhrase _ => "melody"
  | .melodyNote _ => "melody"
  | .melodyCleanup _ => "melody"
  | .playBeatPair => "heartbeat"
  | .heartbeatCleanup _ => "heartbeat"
  | .playArpNote _ _ => "arpeggio"
  | .arpCleanup _ => "arpeggio"

/-- A pending `setTimeout` in the JS runtime: its id, the callback it will
run, and the requested delay in milliseconds. -/
structure PendingTimer where
  id : Nat
  cb : Callback
  delay : ℚ
deriving DecidableEq, Repr

/-- Observable side effects recorded while the engine runs: gain fade
ramps and oscillator stops scheduled on units (with durations relative to
`currentTime`), the invalid-oscillator-type warning, and the two
arpeggiator sequence events (entry into `stopArpeggioSequence`, and an
actual sequence start inside `createArpeggio` with the derived notes). -/
inductive Event where
  | fade (oscId : Nat) (target : ℚ) (dur : ℚ)
  | stopOsc (oscId : Nat) (delay : ℚ)
  | warnOscType (t : String)
  | stopSeq
  | arpCreate (notes : List ℚ)
deriving DecidableEq, Repr

/-- The browser `localStorage` slice the engine touches: the
`ambientMuted` key (present with value "true" iff the flag is `true`) and
the `ambientVolume` key (stored numeric value, `none` when absent). -/
structure Store where
  muted : Bool
  volume : Option ℚ
deriving DecidableEq, Repr

/-- The whole engine state: the module-scoped variables of
`ambientPlayer.js` plus the scheduler, storage and log environment. -/
structure World where
  /-- `audioContext !== null` -/
  ctx : Bool
  /-- `masterGain !== null` -/
  masterGain : Bool
  /-- `analyser !== null` -/
  analyser : Bool
  /-- settled value of `masterGain.gain` (target of last automation) -/
  masterGainValue : ℚ
  activeOscillators : List UnitEntry
  activeTimers : List RegTimer
  isMuted : Bool
  currentVolume : ℚ
  isPlaying : Bool
  heartbeatEnabled : Bool
  arpeggiatorEnabled : Bool
  currentPadChordNotes : List ℚ
  padOscType : String
  padFilterFreq : ℚ
  chordSpeedMs : ℚ
  /-- pending `setTimeout` callbacks of the JS runtime -/
  pending : List PendingTimer
  /-- ids passed to `clearTimeout` so far -/
  cancelled : List Nat
  /-- fresh id source for timers and oscillator identities (starts at 1;
  browser timer ids are positive, which matters for the truthiness check
  `timer.id` in `stopAmbient`) -/
  nextId : Nat
  store : Store
  /-- platform audio support (`window.AudioContext` exists and the
  constructor does not throw) -/
  audioSupported : Bool
  log : List Event
deriving DecidableEq, Repr

/-- `Math.random()` tape: read `k` draws from successive indices. -/
def tshift (k : Nat) (t : Nat → ℚ) : Nat → ℚ := fun n => t (n + k)

/-- `Math.floor(r * n) % n`; for `r ∈ [0, 1)` the `% n` is the identity
and this is exactly `Math.floor(Math.random() * n)`. -/
def randIndex (r : ℚ) (n : Nat) : Nat := (⌊r * n⌋).toNat % n

/-! ## Note/Chord data (constants, lines 26-31 of the source) -/

/-- G minor scale notes. -/
def notes : List ℚ :=
  [196.00, 233.08, 261.63, 293.66, 311.13, 349.23, 392.00, 415.30, 466.16,
   523.25, 587.33, 622.25, 698.46]

/-- Chord progression. -/
def chords : List (List ℚ) :=
  [[notes.getD 0 0, notes.getD 2 0, notes.getD 6 0],
   [notes.getD 2 0, notes.getD 5 0, notes.getD 9 0],
   [notes.getD 4 0, notes.getD 7 0, notes.getD 11 0],
   [notes.getD 3 0, notes.getD 8 0, notes.getD 10 0]]

/-- Bass notes (octave lower). -/
def bassNotes : List ℚ :=
  [notes.getD 0 0 / 2, notes.getD 2 0 / 2, notes.getD 4 0 / 2, notes.getD 3 0 / 2]

/-- Melodic phrases. -/
def phrases : List (List ℚ) :=
  [[notes.getD 6 0, notes.getD 8 0, notes.getD 9 0, notes.getD 6 0],
   [notes.getD 9 0, notes.getD 6 0, notes.getD 5 0, notes.getD 2 0],
   [notes.getD 5 0, notes.getD 6 0, notes.getD 8 0, notes.getD 9 0, notes.getD 8 0],
   [notes.getD 8 0, notes.getD 6 0, notes.getD 4 0, notes.getD 3 0]]

/-! ## Scheduler / registry primitives -/

/-- `const timerId = setTimeout(cb, delay); activeTimers.push(...)`:
allocate a fresh id, add the callback to the runtime pending set, and push
the matching entry (plain id, or tagged object when `tag` is given) onto
the `activeTimers` registry. -/
def pushTimer (cb : Callback) (delay : ℚ) (tag : Option String) (w : World) : World :=
  { w with
    pending := w.pending ++ [⟨w.nextId, cb, delay⟩],
    activeTimers := w.activeTimers ++
      [match tag with
       | none => RegTimer.plain w.nextId
       | some s => RegTimer.tagged w.nextId s],
    nextId := w.nextId + 1 }

/-- `activeOscillators.push({ osc, gain, type })` with a fresh oscillator
identity; returns the new id for use by self-cleanup closures. -/
def pushUnit (type : String) (w : World) : World × Nat :=
  ({ w with
     activeOscillators := w.activeOscillators ++ [⟨w.nextId, type⟩],
     nextId := w.nextId + 1 }, w.nextId)

/-- The fade-and-remove sweep pattern
`activeOscillators = activeOscillators.filter(...)` restricted to one
layer kind: every unit of kind `type` gets a gain ramp to `target` over
`dur` seconds and an oscillator stop at `stopDelay` seconds (recorded in
the log), and is removed; every other unit is kept. -/
def fadeOutUnits (type : String) (target dur stopDelay : ℚ) (w : World) : World :=
  { w with
    activeOscillators := w.activeOscillators.filter (fun u => u.type ≠ type),
    log := w.log ++
      ((w.activeOscillators.filter (fun u => u.type = type)).flatMap
        (fun u => [Event.fade u.id target dur, Event.stopOsc u.id stopDelay])) }

/-! ## Internal sound-creation functions (lines 98-537 of the source) -/

/-- The self-cleanup closure shared (verbatim) by the melody, heartbeat
and arpeggio note units:
`activeOscillators = activeOscillators.filter(item => item.osc !== osc)`. -/
def runUnitCleanup (oscId : Nat) (w : World) : World :=
  { w with activeOscillators := w.activeOscillators.filter (fun u => u.id ≠ oscId) }

/-- `playArpNote` (lines 457-503).  The note frequency
`arpNotes[noteIndex % arpNotes.length]` only feeds the synthesized
oscillator, which is registered here with kind `arpeggio`.  The body
dereferences `audioContext` without a guard, hence `Option`. -/
def playArpNote (arpNotes : List ℚ) (noteIndex : Nat) (w : World) : Option World :=
  if w.ctx = false then none else
  let wu := pushUnit "arpeggio" w
  -- cleanup after (noteDuration + 0.2) * 1000 = 450 ms
  let w2 := pushTimer (.arpCleanup wu.2) 450 none wu.1
  -- schedule the next note only while playing and enabled, with the
  -- tagged timer entry
  if w2.isPlaying && w2.arpeggiatorEnabled then
    some (pushTimer (.playArpNote arpNotes (noteIndex + 1)) 300 (some "arpeggio_note") w2)
  else some w2

/-- `createArpeggio` (lines 446-507): guard, derive the arpeggio notes
from the current pad chord (chord tones plus the second tone an octave
up), then play the first note immediately. -/
def createArpeggio (w : World) : Option World :=
  if !w.ctx || !w.masterGain || !w.isPlaying || !w.arpeggiatorEnabled
     || w.currentPadChordNotes.length == 0 then some w
  else
    let arpNotes := w.currentPadChordNotes ++ [w.currentPadChordNotes.getD 1 0 * 2]
    playArpNote arpNotes 0 { w with log := w.log ++ [Event.arpCreate arpNotes] }

/-- `stopArpeggioSequence` (lines 512-537): clear the pending timers
tagged `arpeggio_note`, then fade-and-remove every arpeggio-tagged unit
over a 0.1 s ramp with the oscillator stopped at 0.2 s.  The
`audioContext.currentTime` read between the two sweeps is unguarded, so
the function faults when the context is absent (the partial timer sweep
of the fault path is not tracked further). -/
def stopArpeggioSequence (w : World) : Option World :=
  let arpIds := (w.activeTimers.filter (fun t => t.isArpNote)).map RegTimer.timerId
  let w1 := { w with
    activeTimers := w.activeTimers.filter (fun t => !t.isArpNote),
    pending := w.pending.filter (fun p => p.id ∉ arpIds),
    cancelled := w.cancelled ++ arpIds,
    log := w.log ++ [Event.stopSeq] }
  if w1.ctx = false then none else
  some (fadeOutUnits "arpeggio" (1/10000) (1/10) (1/5) w1)

/-- `playSingleBeat` (lines 396-429): one short heartbeat pulse,
registered with kind `heartbeat`, with a self-cleanup timer after
`(startTimeOffset + envelopeDuration + 0.2) * 1000` ms. -/
def playSingleBeat (offset : ℚ) (w : World) : World :=
  if !w.isPlaying || !w.ctx then w else
  let wu := pushUnit "heartbeat" w
  pushTimer (.heartbeatCleanup wu.2) ((offset + 1/5 + 1/5) * 1000) none wu.1

/-- `playBeatPair` (lines 393-438): the two beats of a pair, then the
reschedule timer at `beatIntervalSeconds * 1000` = 3000 ms. -/
def runPlayBeatPair (w : World) : World :=
  if !w.isPlaying || !w.ctx || !w.heartbeatEnabled then w else
  pushTimer .playBeatPair 3000 none (playSingleBeat (35/100) (playSingleBeat 0 w))

/-- `createHeartbeat` (lines 383-441). -/
def createHeartbeat (w : World) : World :=
  if !w.ctx || !w.masterGain || !w.isPlaying || !w.heartbeatEnabled then w
  else runPlayBeatPair w

/-- `playBassNote` (lines 207-256).  The bass oscillators are created,
enveloped and self-stopped without ever being registered in
`activeOscillators`; the only state effect is the reschedule timer with
delay `6000 + Math.random() * 2000`. -/
def runPlayBassNote (tape : Nat → ℚ) (noteIndex : Nat) (w : World) : World :=
  if !w.isPlaying || !w.ctx then w else
  pushTimer (.playBassNote ((noteIndex + 1) % bassNotes.length))
    (6000 + tape 0 * 2000) none w

/-- `createBassline` (lines 202-260): pick a random starting index and
schedule the first bass note after 4000 ms. -/
def createBassline (tape : Nat → ℚ) (w : World) : World :=
  if !w.ctx || !w.masterGain || !w.isPlaying then w else
  pushTimer (.playBassNote (randIndex (tape 0) bassNotes.length)) 4000 none w

/-- The inner per-note timeout of the melody phrase (lines 275-321): one
melody unit with a dry and an echo path, registered with kind `melody`,
plus its self-cleanup timer after 3100 ms. -/
def runMelodyNote (freq : ℚ) (w : World) : World :=
  if !w.isPlaying || !w.ctx then w else
  let wu := pushUnit "melody" w
  pushTimer (.melodyCleanup wu.2) 3100 none wu.1

/-- `playPhrase` (lines 268-330): schedule each note of the current
phrase with jittered delay `i * (800 + Math.random() * 200)`, then the
next phrase after `10000 + Math.random() * 5000` ms. -/
def runPlayPhrase (tape : Nat → ℚ) (phraseIndex : Nat) (w : World) : World :=
  if !w.isPlaying || !w.ctx then w else
  let phrase := phrases.getD phraseIndex []
  let w1 := phrase.enum.foldl
    (fun acc p => pushTimer (.melodyNote p.2) ((p.1 : ℚ) * (800 + tape p.1 * 200)) none acc) w
  pushTimer (.playPhrase ((phraseIndex + 1) % phrases.length))
    (10000 + tape phrase.length * 5000) none w1

/-- `createMelody` (lines 263-334): pick a random starting phrase and
schedule the first phrase after 8000 ms. -/
def createMelody (tape : Nat → ℚ) (w : World) : World :=
  if !w.ctx || !w.masterGain || !w.isPlaying then w else
  pushTimer (.playPhrase (randIndex (tape 0) phrases.length)) 8000 none w

/-- `createTexture` (lines 337-377): singleton check, then the looping
noise source is registered with kind `texture`.  No timer is scheduled by
this layer. -/
def createTexture (w : World) : World :=
  if !w.ctx || !w.masterGain || !w.isPlaying then w else
  if w.activeOscillators.any (fun u => u.type = "texture") then w else
  (pushUnit "texture" w).1

/-- The per-chord-tone unit creation of the pad transition (lines
133-178): two detuned oscillators per frequency, both registered with
kind `pad`. -/
def pushPadUnits (freqs : List ℚ) (w : World) : World :=
  freqs.foldl (fun acc _ => (pushUnit "pad" (pushUnit "pad" acc).1).1) w

/-- The `chordProgression` closure inside `createPad` (lines 106-195):
emit the chord at `chordIndex`, detect a change against the previous
emission, fade out the old pad units over 4 s (stop at 4.1 s), register
two detuned oscillators per chord tone, schedule the next transition
after `chordSpeedMs + Math.random() * chordSpeedMs * 0.2` ms, and on a
change with the arpeggiator enabled stop the arpeggio sequence and start
a new one. -/
def runChordProgression (tape : Nat → ℚ) (chordIndex : Nat) (w : World) : Option World :=
  if !w.isPlaying || !w.ctx then some w else
  let previousChordNotes := w.currentPadChordNotes
  let current := chords.getD chordIndex []
  let chordChanged := previousChordNotes ≠ current
  let nextIndex := (chordIndex + 1) % chords.length
  let w1 := fadeOutUnits "pad" (1/10000) 4 (41/10) { w with currentPadChordNotes := current }
  let w2 := pushPadUnits current w1
  let nextChange := w2.chordSpeedMs + tape 0 * (w2.chordSpeedMs * (2/10))
  let w3 := pushTimer (.chordProgression nextIndex) nextChange none w2
  if w3.arpeggiatorEnabled = true ∧ chordChanged then
    (stopArpeggioSequence w3).bind createArpeggio
  else some w3

/-- `createPad` (lines 101-199): pick a random starting chord, initialize
`currentPadChordNotes` before the first call, then run the first chord
progression step immediately. -/
def createPad (tape : Nat → ℚ) (w : World) : Option World :=
  if !w.ctx || !w.masterGain || !w.isPlaying then some w else
  let chordIndex := randIndex (tape 0) chords.length
  runChordProgression (tshift 1 tape) chordIndex
    { w with currentPadChordNotes := chords.getD chordIndex [] }

/-- Dispatch a fired `setTimeout` callback. -/
def runCallback (tape : Nat → ℚ) : Callback → World → Option World
  | .chordProgression i => runChordProgression tape i
  | .playBassNote i => fun w => some (runPlayBassNote tape i w)
  | .playPhrase i => fun w => some (runPlayPhrase tape i w)
  | .melodyNote f => fun w => some (runMelodyNote f w)
  | .melodyCleanup i => fun w => some (runUnitCleanup i w)
  | .playBeatPair => fun w => some (runPlayBeatPair w)
  | .heartbeatCleanup i => fun w => some (runUnitCleanup i w)
  | .playArpNote ns i => playArpNote ns i
  | .arpCleanup i => fun w => some (runUnitCleanup i w)

/-- The JS runtime firing the `i`-th pending timer: the timer must still
be pending (a cleared timer never fires); it is consumed and its callback
runs. -/
def fireTimer (tape : Nat → ℚ) (i : Nat) (w : World) : Option World :=
  match w.pending.get? i with
  | none => none
  | some p => runCallback tape p.cb { w with pending := w.pending.eraseIdx i }

/-! ## Exported functions (lines 39-882 of the source) -/

/-- `initAudio` (lines 39-96).  Returns the updated state and whether the
returned nodes object is non-null.  On first success the persisted
mute/volume are loaded from `localStorage` and the master gain is set; on
constructor failure the three nodes are nullified and `null` is returned.
(Resume attempts on an existing suspended context have no modelled
effect.) -/
def initAudio (w : World) : World × Bool :=
  if w.ctx then (w, true)
  else if !w.audioSupported then
    ({ w with ctx := false, masterGain := false, analyser := false }, false)
  else
    let m := w.store.muted
    let cv := w.store.volume.getD (7/10)
    ({ w with
       ctx := true, masterGain := true, analyser := true,
       isMuted := m, currentVolume := cv,
       masterGainValue := if m then 0 else cv }, true)

/-- `setVolume` (lines 646-662): clamp into [0, 1], store, ramp the
master gain when not muted, persist to `localStorage`. -/
def setVolume (value : ℚ) (w : World) : World :=
  let wi := initAudio w
  if !wi.2 || !wi.1.masterGain then wi.1 else
  let newVolume := max 0 (min 1 value)
  let w1 := { wi.1 with currentVolume := newVolume }
  let w2 := if !w1.isMuted then { w1 with masterGainValue := newVolume } else w1
  { w2 with store := { w2.store with volume := some newVolume } }

/-- `toggleMute` (lines 611-629).  Muting captures the current master
gain value as `currentVolume` when audible, then ramps to zero and
persists the flag; unmuting ramps back to `currentVolume` and removes the
flag. -/
def toggleMute (w : World) : World :=
  let wi := initAudio w
  if !wi.2 || !wi.1.masterGain then wi.1 else
  let w1 := { wi.1 with isMuted := !wi.1.isMuted }
  if w1.isMuted then
    let w2 := if w1.masterGainValue > 1/1000
      then { w1 with currentVolume := w1.masterGainValue } else w1
    { w2 with masterGainValue := 0, store := { w2.store with muted := true } }
  else
    { w1 with
      masterGainValue := w1.currentVolume,
      store := { w1.store with muted := false } }

/-- `setPadOscillatorType` (lines 783-794): store a valid type, warn and
leave the value unchanged otherwise. -/
def validOscTypes : List String := ["sine", "square", "sawtooth", "triangle"]

/-- See `validOscTypes`. -/
def setPadOscillatorType (type : String) (w : World) : World :=
  if type ∈ validOscTypes then { w with padOscType := type }
  else { w with log := w.log ++ [Event.warnOscType type] }

/-- `setPadFilterFrequency` (lines 797-820): clamp into [100, 10000]. -/
def setPadFilterFrequency (freq : ℚ) (w : World) : World :=
  { w with padFilterFreq := max 100 (min 10000 freq) }

/-- `setChordSpeed` (lines 823-828): clamp into [4000, 30000]. -/
def setChordSpeed (ms : ℚ) (w : World) : World :=
  { w with chordSpeedMs := max 4000 (min 30000 ms) }

/-- The layer-starting tail of `startAmbient` (lines 559-566): Pad first,
then Bassline, Texture, Melody, and the two optional layers.  The tape is
split so every layer reads fresh draws. -/
def startLayers (tape : Nat → ℚ) (w : World) : Option World := do
  let w1 ← createPad (tshift 0 tape) w
  let w2 := createBassline (tshift 10 tape) w1
  let w3 := createTexture w2
  let w4 := createMelody (tshift 20 tape) w3
  let w5 := if w4.heartbeatEnabled then createHeartbeat w4 else w4
  if w5.arpeggiatorEnabled = true ∧ w5.currentPadChordNotes.length > 0 then
    createArpeggio w5
  else pure w5

/-- `startAmbient` (lines 545-567).  `resumeOk = false` models the catch
branch of the awaited `audioContext.resume()` returning early. -/
def startAmbient (tape : Nat → ℚ) (resumeOk : Bool) (w : World) : Option World :=
  let wi := initAudio w
  if !wi.2 || !wi.1.ctx || wi.1.isPlaying then some wi.1 else
  if !resumeOk then some wi.1 else
  let w1 := setVolume wi.1.currentVolume { wi.1 with isPlaying := true }
  startLayers tape w1

/-- The ids `stopAmbient` passes to `clearTimeout`: tagged entries via the
truthy check `timer.id`, plain entries via `typeof timer === "number"`. -/
def clearedByStop (l : List RegTimer) : List Nat :=
  l.filterMap (fun t => match t with
    | .plain i => some i
    | .tagged i _ => if i ≠ 0 then some i else none)

/-- `stopAmbient` (lines 572-604): guard, set `isPlaying := false`, clear
every registered timer, fade every active unit to near-silence over 1.0 s
(stop at 1.1 s), and empty both registries. -/
def stopAmbient (w : World) : World :=
  if !w.ctx || !w.isPlaying then w else
  let cleared := clearedByStop w.activeTimers
  { w with
    isPlaying := false,
    activeTimers := [],
    activeOscillators := [],
    pending := w.pending.filter (fun p => p.id ∉ cleared),
    cancelled := w.cancelled ++ cleared,
    log := w.log ++ w.activeOscillators.flatMap
      (fun u => [Event.fade u.id (1/10000) 1, Event.stopOsc u.id (11/10)]) }

/-- `toggleHeartbeat` (lines 831-865).  The disable branch while playing
dereferences `audioContext.currentTime` without a guard (hence `Option`),
fades-and-removes the heartbeat-tagged units over 0.1 s (stop at 0.2 s),
and keeps every timer. -/
def toggleHeartbeat (w : World) : Option World :=
  let w1 := { w with heartbeatEnabled := !w.heartbeatEnabled }
  if w1.isPlaying then
    if w1.heartbeatEnabled then some (createHeartbeat w1)
    else if w1.ctx = false then none
    else some (fadeOutUnits "heartbeat" (1/10000) (1/10) (1/5) w1)
  else some w1

/-- `toggleArpeggiator` (lines 868-882). -/
def toggleArpeggiator (w : World) : Option World :=
  let w1 := { w with arpeggiatorEnabled := !w.arpeggiatorEnabled }
  if w1.isPlaying then
    if w1.arpeggiatorEnabled then createArpeggio w1
    else stopArpeggioSequence w1
  else some w1

/-! ## Settings management (lines 704-762) -/

/-- The snapshot returned by `getSettings` (lines 710-721). -/
structure Settings where
  volume : ℚ
  isMuted : Bool
  padOscType : String
  padFilterFreq : ℚ
  chordSpeedMs : ℚ
  heartbeatEnabled : Bool
  arpeggiatorEnabled : Bool
deriving DecidableEq, Repr

/-- `getSettings` (lines 710-721). -/
def getSettings (w : World) : Settings :=
  { volume := w.currentVolume, isMuted := w.isMuted,
    padOscType := w.padOscType, padFilterFreq := w.padFilterFreq,
    chordSpeedMs := w.chordSpeedMs, heartbeatEnabled := w.heartbeatEnabled,
    arpeggiatorEnabled := w.arpeggiatorEnabled }

/-- A JS value as far as the `typeof` checks of `applySettings` care:
a number, a boolean, a string, or anything else (undefined, null, an
object, ...). -/
inductive JVal where
  | num (q : ℚ)
  | bool (b : Bool)
  | str (s : String)
  | undef
deriving DecidableEq, Repr

/-- An arbitrary object passed to `applySettings`: each settings key holds
some JS value (absent keys read as `undefined`). -/
structure JSettings where
  volume : JVal
  isMuted : JVal
  padOscType : JVal
  padFilterFreq : JVal
  chordSpeedMs : JVal
  heartbeatEnabled : JVal
  arpeggiatorEnabled : JVal
deriving DecidableEq, Repr

/-- The snapshot of `getSettings` viewed as a JS object (every field is
of its expected type). -/
def Settings.toJ (s : Settings) : JSettings :=
  { volume := .num s.volume, isMuted := .bool s.isMuted,
    padOscType := .str s.padOscType, padFilterFreq := .num s.padFilterFreq,
    chordSpeedMs := .num s.chordSpeedMs,
    heartbeatEnabled := .bool s.heartbeatEnabled,
    arpeggiatorEnabled := .bool s.arpeggiatorEnabled }

/-- Stage of `applySettings`: `if (typeof settings.volume === "number")
setVolume(settings.volume)` (lines 734-736). -/
def applyVolume (s : JSettings) (w : World) : World :=
  match s.volume with | .num v => setVolume v w | _ => w

/-- Stage of `applySettings`: toggle mute only when the boolean field
differs from the current state (lines 737-739). -/
def applyMute (s : JSettings) (w : World) : World :=
  match s.isMuted with
  | .bool b => if b ≠ w.isMuted then toggleMute w else w
  | _ => w

/-- Stage of `applySettings`: pad oscillator type (lines 742-744). -/
def applyOscType (s : JSettings) (w : World) : World :=
  match s.padOscType with | .str t => setPadOscillatorType t w | _ => w

/-- Stage of `applySettings`: pad filter frequency (lines 745-747). -/
def applyFilterFreq (s : JSettings) (w : World) : World :=
  match s.padFilterFreq with | .num q => setPadFilterFrequency q w | _ => w

/-- Stage of `applySettings`: chord speed (lines 748-750). -/
def applyChordSpeed (s : JSettings) (w : World) : World :=
  match s.chordSpeedMs with | .num q => setChordSpeed q w | _ => w

/-- Stage of `applySettings`: heartbeat toggle only when the boolean
field differs from the current state (lines 754-756). -/
def applyHeartbeat (s : JSettings) (w : World) : Option World :=
  match s.heartbeatEnabled with
  | .bool b => if b ≠ w.heartbeatEnabled then toggleHeartbeat w else some w
  | _ => some w

/-- Stage of `applySettings`: arpeggiator toggle only when the boolean
field differs from the current state (lines 757-759). -/
def applyArpeggiator (s : JSettings) (w : World) : Option World :=
  match s.arpeggiatorEnabled with
  | .bool b => if b ≠ w.arpeggiatorEnabled then toggleArpeggiator w else some w
  | _ => some w

/-- `applySettings` (lines 728-762): `null`/`undefined` returns
immediately; otherwise volume, then mute (only when it differs), then the
pad parameters, then the two layer toggles (only when they differ), each
applied only when the field has its expected type. -/
def applySettings (settings : Option JSettings) (w : World) : Option World :=
  match settings with
  | none => some w
  | some s =>
    (applyHeartbeat s
      (applyChordSpeed s (applyFilterFreq s (applyOscType s
        (applyMute s (applyVolume s w)))))).bind
      (applyArpeggiator s)

/-! ## Initial state and reachability -/

/-- A well-formed persisted store: the engine itself only ever writes a
clamped volume, so a store left behind by the engine satisfies this. -/
def WFStore (st : Store) : Prop :=
  ∀ v, st.volume = some v → 0 ≤ v ∧ v ≤ 1

instance (st : Store) : Decidable (WFStore st) :=
  decidable_of_iff (st.volume.all (fun v => decide (0 ≤ v ∧ v ≤ 1)) = true)
    (by obtain ⟨m, vol⟩ := st; cases vol <;> simp [WFStore, Option.all])

/-- The state right after the module loads: all nodes null, defaults from
lines 8-24 of the source, with a given platform-support flag and
persisted store. -/
def initialWorld (sup : Bool) (st : Store) : World :=
  { ctx := false, masterGain := false, analyser := false,
    masterGainValue := 0,
    activeOscillators := [], activeTimers := [],
    isMuted := false, currentVolume := 7/10, isPlaying := false,
    heartbeatEnabled := false, arpeggiatorEnabled := false,
    currentPadChordNotes := [],
    padOscType := "triangle", padFilterFreq := 2000, chordSpeedMs := 12000,
    pending := [], cancelled := [], nextId := 1,
    store := st, audioSupported := sup, log := [] }

/-- One externally triggered transition of the engine: an exported call
or the runtime firing a pending timer. -/
inductive Step : World → World → Prop where
  | init (w : World) : Step w (initAudio w).1
  | start (w w' : World) (tape : Nat → ℚ) (rOk : Bool) :
      startAmbient tape rOk w = some w' → Step w w'
  | stop (w : World) : Step w (stopAmbient w)
  | mute (w : World) : Step w (toggleMute w)
  | vol (w : World) (v : ℚ) : Step w (setVolume v w)
  | oscType (w : World) (t : String) : Step w (setPadOscillatorType t w)
  | filterFreq (w : World) (q : ℚ) : Step w (setPadFilterFrequency q w)
  | chordSpeed (w : World) (q : ℚ) : Step w (setChordSpeed q w)
  | heartbeat (w w' : World) : toggleHeartbeat w = some w' → Step w w'
  | arpeggiator (w w' : World) : toggleArpeggiator w = some w' → Step w w'
  | applySet (w w' : World) (s : Option JSettings) :
      applySettings s w = some w' → Step w w'
  | fire (w w' : World) (tape : Nat → ℚ) (i : Nat) :
      fireTimer tape i w = some w' → Step w w'

/-- The states the engine can be in: every state obtained from a fresh
module load (over any platform support and well-formed persisted store)
by exported calls and timer firings. -/
inductive Reachable : World → Prop where
  | base (sup : Bool) (st : Store) : WFStore st → Reachable (initialWorld sup st)
  | step (w w' : World) : Reachable w → Step w w' → Reachable w'

/-! ## The reachable-state invariant -/

/-- The `setTimeout` ids registered in `activeTimers`. -/
def regIds (l : List RegTimer) : List Nat := l.map RegTimer.timerId

/-- Invariant satisfied by every reachable engine state. -/
structure Inv (w : World) : Prop where
  /-- while playing, the audio nodes are non-null -/
  playCtx : w.isPlaying = true → w.ctx = true
  /-- the three nodes are created and nullified together -/
  mgEq : w.masterGain = w.ctx
  anEq : w.analyser = w.ctx
  /-- when stopped, both registries and the runtime pending set are empty -/
  stopped : w.isPlaying = false →
    w.activeOscillators = [] ∧ w.activeTimers = [] ∧ w.pending = []
  /-- every pending timer is registered in `activeTimers` -/
  pendReg : ∀ p ∈ w.pending, p.id ∈ regIds w.activeTimers
  /-- registered timer ids are positive (browser timer ids are) -/
  idsPos : ∀ t ∈ w.activeTimers, 0 < t.timerId
  nextPos : 0 < w.nextId
  /-- settled master gain matches mute/volume -/
  gainSettled : w.ctx = true →
    w.masterGainValue = (if w.isMuted then 0 else w.currentVolume)
  volLo : 0 ≤ w.currentVolume
  volHi : w.currentVolume ≤ 1
  filtLo : 100 ≤ w.padFilterFreq
  filtHi : w.padFilterFreq ≤ 10000
  speedLo : 4000 ≤ w.chordSpeedMs
  speedHi : w.chordSpeedMs ≤ 30000
  /-- before initialization the persisted mute/volume have not been loaded -/
  noCtxMuted : w.ctx = false → w.isMuted = false
  noCtxVol : w.ctx = false → w.currentVolume = 7/10
  wfStore : WFStore w.store

instance (w : World) : Decidable (Inv w) :=
  decidable_of_iff
    ((w.isPlaying = true → w.ctx = true)
      ∧ w.masterGain = w.ctx ∧ w.analyser = w.ctx
      ∧ (w.isPlaying = false →
          w.activeOscillators = [] ∧ w.activeTimers = [] ∧ w.pending = [])
      ∧ (∀ p ∈ w.pending, p.id ∈ regIds w.activeTimers)
      ∧ (∀ t ∈ w.activeTimers, 0 < t.timerId)
      ∧ 0 < w.nextId
      ∧ (w.ctx = true →
          w.masterGainValue = (if w.isMuted then 0 else w.currentVolume))
      ∧ 0 ≤ w.currentVolume ∧ w.currentVolume ≤ 1
      ∧ 100 ≤ w.padFilterFreq ∧ w.padFilterFreq ≤ 10000
      ∧ 4000 ≤ w.chordSpeedMs ∧ w.chordSpeedMs ≤ 30000
      ∧ (w.ctx = false → w.isMuted = false)
      ∧ (w.ctx = false → w.currentVolume = 7/10)
      ∧ WFStore w.store)
    ⟨fun ⟨a, b, c, d, e, f, g, h, i, j, k, l, m, n, o, p, q⟩ =>
      ⟨a, b, c, d, e, f, g, h, i, j, k, l, m, n, o, p, q⟩,
     fun h => ⟨h.playCtx, h.mgEq, h.anEq, h.stopped, h.pendReg, h.idsPos,
      h.nextPos, h.gainSettled, h.volLo, h.volHi, h.filtLo, h.filtHi,
      h.speedLo, h.speedHi, h.noCtxMuted, h.noCtxVol, h.wfStore⟩⟩

/-! ## Derived notions used by the claim statements -/

/-- A state used to instantiate the witnesses: playing, with live nodes,
one pad unit, a plain pending timer and a tagged arpeggiator timer. -/
def wPlaying : World :=
  { ctx := true, masterGain := true, analyser := true, masterGainValue := 1,
    activeOscillators := [⟨2, "pad"⟩, ⟨4, "arpeggio"⟩],
    activeTimers := [.plain 1, .tagged 3 "arpeggio_note"],
    isMuted := false, currentVolume := 1, isPlaying := true,
    heartbeatEnabled := false, arpeggiatorEnabled := true,
    currentPadChordNotes := [196, 220, 392],
    padOscType := "triangle", padFilterFreq := 2000, chordSpeedMs := 12000,
    pending := [⟨1, .chordProgression 1, 12000⟩, ⟨3, .playArpNote [196] 1, 300⟩],
    cancelled := [], nextId := 5, store := ⟨false, none⟩, audioSupported := true,
    log := [] }

/-- The nodes invariant of claim C9: whenever the engine is playing, the
audio context, master gain and analyser are all non-null. -/
abbrev NodesInv (w : World) : Prop :=
  w.isPlaying = true → w.ctx = true ∧ w.masterGain = true ∧ w.analyser = true

/-- The arpeggiator sequence lifecycle events among the logged effects:
entry into `stopArpeggioSequence` and a sequence start in
`createArpeggio`. -/
def isSeqEvent : Event → Bool
  | .stopSeq => true
  | .arpCreate _ => true
  | _ => false

/-- The scalar fields tracked through layer starts. -/
structure SameFields (w' w : World) : Prop where
  notes : w'.currentPadChordNotes = w.currentPadChordNotes
  ctx : w'.ctx = w.ctx
  mg : w'.masterGain = w.masterGain
  play : w'.isPlaying = w.isPlaying
  hb : w'.heartbeatEnabled = w.heartbeatEnabled
  arp : w'.arpeggiatorEnabled = w.arpeggiatorEnabled
  speed : w'.chordSpeedMs = w.chordSpeedMs

/-- The state reached from the default initial state by the
initialization part of `startAmbient` (fresh context, nodes live,
`isPlaying` already set). -/
def wFresh : World :=
  { initialWorld true ⟨false, none⟩ with
    ctx := true, masterGain := true, analyser := true,
    isPlaying := true, currentVolume := 7/10, masterGainValue := 7/10 }

/-- `wFresh` after `setVolume(currentVolume)`: the state handed to
`startLayers` by a default `startAmbient` run. -/
def wStart : World :=
  { wFresh with
    currentVolume := 7/10, masterGainValue := 7/10,
    store := ⟨false, some (7/10)⟩ }

/-- An uninitialized engine whose persisted store says muted: the
state exercising the `applySettings`-triggers-`initAudio` interaction. -/
def c10World : World := initialWorld true ⟨true, none⟩

/-- A settings object carrying only a (typed) volume; every other field
is undefined. -/
def s10 : JSettings :=
  ⟨.num 2, .undef, .undef, .undef, .undef, .undef, .undef⟩

/-- Value of the stored volume after a settings application: clamped when
the field is a number, unchanged otherwise. -/
def expVolume (s : JSettings) (v : ℚ) : ℚ :=
  match s.volume with | .num q => max 0 (min 1 q) | _ => v

/-- Value of the mute flag after a settings application. -/
def expMuted (s : JSettings) (b : Bool) : Bool :=
  match s.isMuted with | .bool c => c | _ => b

/-- Value of the pad oscillator type after a settings application: an
invalid string is rejected with the stored value kept. -/
def expOsc (s : JSettings) (t : String) : String :=
  match s.padOscType with
  | .str u => if u ∈ validOscTypes then u else t
  | _ => t

/-- Value of the pad filter frequency after a settings application. -/
def expFilter (s : JSettings) (q : ℚ) : ℚ :=
  match s.padFilterFreq with | .num v => max 100 (min 10000 v) | _ => q

/-- Value of the chord speed after a settings application. -/
def expSpeed (s : JSettings) (q : ℚ) : ℚ :=
  match s.chordSpeedMs with | .num v => max 4000 (min 30000 v) | _ => q

/-- Value of the heartbeat toggle after a settings application. -/
def expHb (s : JSettings) (b : Bool) : Bool :=
  match s.heartbeatEnabled with | .bool c => c | _ => b

/-- Value of the arpeggiator toggle after a settings application. -/
def expArp (s : JSettings) (b : Bool) : Bool :=
  match s.arpeggiatorEnabled with | .bool c => c | _ => b

/-- A live, settled engine: context present, master gain node present,
and the settled gain matching the mute flag and stored volume. -/
def Live (w : World) : Prop :=
  w.ctx = true ∧ w.masterGain = true
    ∧ w.masterGainValue = (if w.isMuted then 0 else w.currentVolume)

/-- Equality of every scalar field the sound-creation helpers never
touch (they only write the registries, the scheduler and the log). -/
structure CoreEq (w' w : World) : Prop where
  ctx : w'.ctx = w.ctx
  mg : w'.masterGain = w.masterGain
  mgv : w'.masterGainValue = w.masterGainValue
  muted : w'.isMuted = w.isMuted
  vol : w'.currentVolume = w.currentVolume
  osc : w'.padOscType = w.padOscType
  filt : w'.padFilterFreq = w.padFilterFreq
  speed : w'.chordSpeedMs = w.chordSpeedMs
  hb : w'.heartbeatEnabled = w.heartbeatEnabled
  arp : w'.arpeggiatorEnabled = w.arpeggiatorEnabled

/-- The seven observable parameter fields of claim C6: the round-trip
`applySettings (getSettings())` must leave each of them unchanged. -/
structure ParamEq (w' w : World) : Prop where
  vol : w'.currentVolume = w.currentVolume
  muted : w'.isMuted = w.isMuted
  osc : w'.padOscType = w.padOscType
  filt : w'.padFilterFreq = w.padFilterFreq
  speed : w'.chordSpeedMs = w.chordSpeedMs
  hb : w'.heartbeatEnabled = w.heartbeatEnabled
  arp : w'.arpeggiatorEnabled = w.arpeggiatorEnabled

/-! ## Invariant preservation: registry helpers -/

theorem regIds_append (l₁ l₂ : List RegTimer) :
    regIds (l₁ ++ l₂) = regIds l₁ ++ regIds l₂ := by
  simp [regIds]

theorem inv_pushTimer {w : World} (cb : Callback) (d : ℚ) (tag : Option String)
    (h : Inv w) (hp : w.isPlaying = true) : Inv (pushTimer cb d tag w) := by
  have hid : ∀ t : Option String,
      RegTimer.timerId
        (match t with
         | none => RegTimer.plain w.nextId
         | some s => RegTimer.tagged w.nextId s) = w.nextId := by
    intro t; cases t <;> rfl
  refine ⟨?_, ?_, ?_, ?_, ?_, ?_, ?_, ?_, ?_, ?_, ?_, ?_, ?_, ?_, ?_, ?_, ?_⟩ <;>
    simp only [pushTimer]
  · exact h.playCtx
  · exact h.mgEq
  · exact h.anEq
  · intro hs; rw [hp] at hs; exact absurd hs (by simp)
  · intro p hp'
    rcases List.mem_append.mp hp' with hmem | hmem
    · rw [regIds_append, List.mem_append]
      exact Or.inl (h.pendReg p hmem)
    · rw [regIds_append, List.mem_append]
      right
      simp only [List.mem_singleton] at hmem
      subst hmem
      simp [regIds, hid]
  · intro t ht
    rcases List.mem_append.mp ht with hmem | hmem
    · exact h.idsPos t hmem
    · simp only [List.mem_singleton] at hmem
      subst hmem
      rw [hid]
      exact h.nextPos
  · exact Nat.succ_pos _
  · exact h.gainSettled
  · exact h.volLo
  · exact h.volHi
  · exact h.filtLo
  · exact h.filtHi
  · exact h.speedLo
  · exact h.speedHi
  · exact h.noCtxMuted
  · exact h.noCtxVol
  · exact h.wfStore

/-- Transfer of the invariant to a state that keeps every scalar field
and changes only the registries, pending set, cancelled list, id counter
and log. -/
theorem inv_copy {w w' : World}
    (h : Inv w)
    (hctx : w'.ctx = w.ctx) (hmg : w'.masterGain = w.masterGain)
    (han : w'.analyser = w.analyser) (hplay : w'.isPlaying = w.isPlaying)
    (hmut : w'.isMuted = w.isMuted) (hvol : w'.currentVolume = w.currentVolume)
    (hmgv : w'.masterGainValue = w.masterGainValue)
    (hfil : w'.padFilterFreq = w.padFilterFreq)
    (hspd : w'.chordSpeedMs = w.chordSpeedMs)
    (hstore : w'.store = w.store)
    (hstop : w'.isPlaying = false →
      w'.activeOscillators = [] ∧ w'.activeTimers = [] ∧ w'.pending = [])
    (hpr : ∀ p ∈ w'.pending, p.id ∈ regIds w'.activeTimers)
    (hip : ∀ t ∈ w'.activeTimers, 0 < t.timerId)
    (hnp : 0 < w'.nextId) : Inv w' := by
  refine ⟨?_, ?_, ?_, hstop, hpr, hip, hnp, ?_, ?_, ?_, ?_, ?_, ?_, ?_, ?_, ?_, ?_⟩
  · rw [hplay, hctx]; exact h.playCtx
  · rw [hmg, hctx]; exact h.mgEq
  · rw [han, hctx]; exact h.anEq
  · rw [hctx, hmgv, hmut, hvol]; exact h.gainSettled
  · rw [hvol]; exact h.volLo
  · rw [hvol]; exact h.volHi
  · rw [hfil]; exact h.filtLo
  · rw [hfil]; exact h.filtHi
  · rw [hspd]; exact h.speedLo
  · rw [hspd]; exact h.speedHi
  · rw [hctx, hmut]; exact h.noCtxMuted
  · rw [hctx, hvol]; exact h.noCtxVol
  · rw [hstore]; exact h.wfStore

theorem inv_pushUnit {w : World} (ty : String)
    (h : Inv w) (hp : w.isPlaying = true) : Inv (pushUnit ty w).1 := by
  refine inv_copy h rfl rfl rfl rfl rfl rfl rfl rfl rfl rfl ?_ ?_ ?_ ?_
  · intro hs
    exact absurd (hp ▸ hs) (by simp)
  · exact h.pendReg
  · exact h.idsPos
  · exact Nat.succ_pos _

theorem inv_fadeOutUnits {w : World} (ty : String) (a b c : ℚ)
    (h : Inv w) : Inv (fadeOutUnits ty a b c w) := by
  refine inv_copy h rfl rfl rfl rfl rfl rfl rfl rfl rfl rfl ?_ ?_ ?_ ?_
  · intro hs
    obtain ⟨ho, ht, hp⟩ := h.stopped hs
    refine ⟨?_, ht, hp⟩
    simp only [fadeOutUnits, ho, List.filter_nil]
  · exact h.pendReg
  · exact h.idsPos
  · exact h.nextPos

theorem inv_runUnitCleanup {w : World} {oscId : Nat} :
    Inv w → Inv (runUnitCleanup oscId w) := by
  intro h
  refine inv_copy h rfl rfl rfl rfl rfl rfl rfl rfl rfl rfl ?_ ?_ ?_ ?_
  · intro hs
    obtain ⟨ho, ht, hp⟩ := h.stopped hs
    refine ⟨?_, ht, hp⟩
    simp only [runUnitCleanup, ho, List.filter_nil]
  · exact h.pendReg
  · exact h.idsPos
  · exact h.nextPos

/-! ## Invariant preservation: layer routines -/

theorem inv_playArpNote {w w' : World} {ns : List ℚ} {i : Nat}
    (h : Inv w) (hp : w.isPlaying = true)
    (he : playArpNote ns i w = some w') : Inv w' := by
  unfold playArpNote at he
  by_cases hc : w.ctx = false
  · rw [if_pos hc] at he; cases he
  · rw [if_neg hc] at he
    dsimp only at he
    split at he <;> (cases he)
    · exact inv_pushTimer _ _ _ (inv_pushTimer _ _ _ (inv_pushUnit _ h hp) hp) hp
    · exact inv_pushTimer _ _ _ (inv_pushUnit _ h hp) hp

theorem inv_log_append {w : World} {evs : List Event} (h : Inv w) :
    Inv { w with log := w.log ++ evs } := by
  refine inv_copy h rfl rfl rfl rfl rfl rfl rfl rfl rfl rfl ?_ ?_ ?_ ?_
  · exact h.stopped
  · exact h.pendReg
  · exact h.idsPos
  · exact h.nextPos

theorem inv_createArpeggio {w w' : World}
    (h : Inv w) (he : createArpeggio w = some w') : Inv w' := by
  unfold createArpeggio at he
  split at he
  · cases he; exact h
  · next hguard =>
    have hp : w.isPlaying = true := by
      by_contra hnp
      simp only [Bool.not_eq_true] at hnp
      simp [hnp] at hguard
    exact inv_playArpNote (inv_log_append h) hp he

theorem inv_stopArpeggioSequence {w w' : World}
    (h : Inv w) (he : stopArpeggioSequence w = some w') : Inv w' := by
  unfold stopArpeggioSequence at he
  dsimp only at he
  split at he
  · cases he
  · next hc =>
    cases he
    apply inv_fadeOutUnits
    refine inv_copy h rfl rfl rfl rfl rfl rfl rfl rfl rfl rfl ?_ ?_ ?_ ?_
    · intro hs
      obtain ⟨ho, ht, hpe⟩ := h.stopped hs
      simp [ho, ht, hpe]
    · intro p hpmem
      simp only [List.mem_filter] at hpmem
      obtain ⟨hpmem, hnarp0⟩ := hpmem
      have hnarp : p.id ∉
          (w.activeTimers.filter (fun t => t.isArpNote)).map RegTimer.timerId := by
        simpa using hnarp0
      have := h.pendReg p hpmem
      simp only [regIds, List.mem_map] at this ⊢
      obtain ⟨t, htmem, htid⟩ := this
      refine ⟨t, ?_, htid⟩
      simp only [List.mem_filter]
      refine ⟨htmem, ?_⟩
      by_contra harp
      simp at harp
      exact hnarp (by
        simp only [List.mem_map]
        exact ⟨t, List.mem_filter.mpr ⟨htmem, harp⟩, htid⟩)
    · intro t htmem
      exact h.idsPos t (List.mem_filter.mp htmem).1
    · exact h.nextPos

theorem inv_playSingleBeat {w : World} (off : ℚ) (h : Inv w) :
    Inv (playSingleBeat off w) := by
  unfold playSingleBeat
  split
  · exact h
  · next hguard =>
    have hp : w.isPlaying = true := by
      by_contra hnp
      simp only [Bool.not_eq_true] at hnp
      simp [hnp] at hguard
    exact inv_pushTimer _ _ _ (inv_pushUnit _ h hp) hp

theorem playSingleBeat_isPlaying (off : ℚ) (w : World) :
    (playSingleBeat off w).isPlaying = w.isPlaying := by
  unfold playSingleBeat; split <;> rfl

theorem inv_runPlayBeatPair {w : World} (h : Inv w) : Inv (runPlayBeatPair w) := by
  unfold runPlayBeatPair
  split
  · exact h
  · next hguard =>
    have hp : w.isPlaying = true := by
      by_contra hnp
      simp only [Bool.not_eq_true] at hnp
      simp [hnp] at hguard
    exact inv_pushTimer _ _ _ (inv_playSingleBeat _ (inv_playSingleBeat _ h))
      (by rw [playSingleBeat_isPlaying, playSingleBeat_isPlaying]; exact hp)

theorem inv_createHeartbeat {w : World} (h : Inv w) : Inv (createHeartbeat w) := by
  unfold createHeartbeat
  split
  · exact h
  · exact inv_runPlayBeatPair h

theorem inv_runPlayBassNote {w : World} {tape : Nat → ℚ} {i : Nat} (h : Inv w) :
    Inv (runPlayBassNote tape i w) := by
  unfold runPlayBassNote
  split
  · exact h
  · next hguard =>
    have hp : w.isPlaying = true := by
      by_contra hnp
      simp only [Bool.not_eq_true] at hnp
      simp [hnp] at hguard
    exact inv_pushTimer _ _ _ h hp

theorem inv_createBassline {w : World} {tape : Nat → ℚ} (h : Inv w) :
    Inv (createBassline tape w) := by
  unfold createBassline
  split
  · exact h
  · next hguard =>
    have hp : w.isPlaying = true := by
      by_contra hnp
      simp only [Bool.not_eq_true] at hnp
      simp [hnp] at hguard
    exact inv_pushTimer _ _ _ h hp

theorem inv_runMelodyNote {w : World} {f : ℚ} (h : Inv w) :
    Inv (runMelodyNote f w) := by
  unfold runMelodyNote
  split
  · exact h
  · next hguard =>
    have hp : w.isPlaying = true := by
      by_contra hnp
      simp only [Bool.not_eq_true] at hnp
      simp [hnp] at hguard
    exact inv_pushTimer _ _ _ (inv_pushUnit _ h hp) hp

theorem inv_foldl_pushTimer {α : Type} (l : List α) (cb : α → Callback) (d : α → ℚ)
    {w : World} (h : Inv w) (hp : w.isPlaying = true) :
    Inv (l.foldl (fun acc p => pushTimer (cb p) (d p) none acc) w) := by
  induction l generalizing w with
  | nil => exact h
  | cons a l ih =>
    rw [List.foldl_cons]
    exact ih (inv_pushTimer _ _ _ h hp) hp

theorem foldl_pushTimer_isPlaying {α : Type} (l : List α) (cb : α → Callback)
    (d : α → ℚ) (w : World) :
    (l.foldl (fun acc p => pushTimer (cb p) (d p) none acc) w).isPlaying
      = w.isPlaying := by
  induction l generalizing w with
  | nil => rfl
  | cons a l ih => rw [List.foldl_cons, ih]; rfl

theorem inv_runPlayPhrase {w : World} {tape : Nat → ℚ} {i : Nat} (h : Inv w) :
    Inv (runPlayPhrase tape i w) := by
  unfold runPlayPhrase
  split
  · exact h
  · next hguard =>
    have hp : w.isPlaying = true := by
      by_contra hnp
      simp only [Bool.not_eq_true] at hnp
      simp [hnp] at hguard
    refine inv_pushTimer _ _ _ (inv_foldl_pushTimer _ _ _ h hp) ?_
    rw [foldl_pushTimer_isPlaying]
    exact hp

theorem inv_createMelody {w : World} {tape : Nat → ℚ} (h : Inv w) :
    Inv (createMelody tape w) := by
  unfold createMelody
  split
  · exact h
  · next hguard =>
    have hp : w.isPlaying = true := by
      by_contra hnp
      simp only [Bool.not_eq_true] at hnp
      simp [hnp] at hguard
    exact inv_pushTimer _ _ _ h hp

theorem inv_createTexture {w : World} (h : Inv w) : Inv (createTexture w) := by
  unfold createTexture
  split
  · exact h
  · next hguard =>
    have hp : w.isPlaying = true := by
      by_contra hnp
      simp only [Bool.not_eq_true] at hnp
      simp [hnp] at hguard
    split
    · exact h
    · exact inv_pushUnit _ h hp

theorem inv_setChordNotes {w : World} (c : List ℚ) (h : Inv w) :
    Inv { w with currentPadChordNotes := c } := by
  refine inv_copy h rfl rfl rfl rfl rfl rfl rfl rfl rfl rfl ?_ ?_ ?_ ?_
  · exact h.stopped
  · exact h.pendReg
  · exact h.idsPos
  · exact h.nextPos

theorem inv_foldl_pushPad (l : List ℚ) {w : World} (h : Inv w)
    (hp : w.isPlaying = true) : Inv (pushPadUnits l w) := by
  induction l generalizing w with
  | nil => exact h
  | cons a l ih =>
    rw [pushPadUnits, List.foldl_cons]
    exact ih (inv_pushUnit _ (inv_pushUnit _ h hp) hp) hp

theorem foldl_pushPad_isPlaying (l : List ℚ) (w : World) :
    (pushPadUnits l w).isPlaying = w.isPlaying := by
  induction l generalizing w with
  | nil => rfl
  | cons a l ih => rw [pushPadUnits, List.foldl_cons, ← pushPadUnits, ih]; rfl

theorem inv_runChordProgression {w w' : World} {tape : Nat → ℚ} {i : Nat}
    (h : Inv w) (he : runChordProgression tape i w = some w') : Inv w' := by
  unfold runChordProgression at he
  split at he
  · cases he; exact h
  · next hguard =>
    have hp : w.isPlaying = true := by
      by_contra hnp
      simp only [Bool.not_eq_true] at hnp
      simp [hnp] at hguard
    dsimp only at he
    have h1 := inv_fadeOutUnits "pad" (1/10000) 4 (41/10)
      (inv_setChordNotes (chords.getD i []) h)
    have h2 := inv_foldl_pushPad (chords.getD i []) h1 hp
    have hp2 := foldl_pushPad_isPlaying (chords.getD i [])
    split at he
    · rcases Option.bind_eq_some.mp he with ⟨w5, hs, hc⟩
      refine inv_createArpeggio (inv_stopArpeggioSequence ?_ hs) hc
      exact inv_pushTimer _ _ _ h2 (by rw [hp2]; exact hp)
    · cases he
      exact inv_pushTimer _ _ _ h2 (by rw [hp2]; exact hp)

theorem inv_createPad {w w' : World} {tape : Nat → ℚ}
    (h : Inv w) (he : createPad tape w = some w') : Inv w' := by
  unfold createPad at he
  split at he
  · cases he; exact h
  · exact inv_runChordProgression (inv_setChordNotes _ h) he

/-! ## Invariant preservation: exported operations -/

/-- Case analysis of `initAudio`: context already present, constructor
failure, or fresh initialization loading the persisted settings. -/
theorem initAudio_spec (w : World) :
    (w.ctx = true ∧ initAudio w = (w, true))
    ∨ (w.ctx = false ∧ w.audioSupported = false ∧
        initAudio w =
          ({ w with ctx := false, masterGain := false, analyser := false }, false))
    ∨ (w.ctx = false ∧ w.audioSupported = true ∧
        initAudio w =
          ({ w with
             ctx := true, masterGain := true, analyser := true,
             isMuted := w.store.muted,
             currentVolume := w.store.volume.getD (7/10),
             masterGainValue :=
               if w.store.muted then 0 else w.store.volume.getD (7/10) }, true)) := by
  unfold initAudio
  rcases Bool.eq_false_or_eq_true w.ctx with hc | hc
  · exact Or.inl ⟨hc, by rw [if_pos (by simp [hc])]⟩
  · rcases Bool.eq_false_or_eq_true w.audioSupported with hs | hs
    · exact Or.inr (Or.inr ⟨hc, hs, by rw [if_neg (by simp [hc]), if_neg (by simp [hs])]⟩)
    · exact Or.inr (Or.inl ⟨hc, hs, by rw [if_neg (by simp [hc]), if_pos (by simp [hs])]⟩)

theorem inv_initAudio {w : World} (h : Inv w) : Inv (initAudio w).1 := by
  rcases initAudio_spec w with ⟨hc, he⟩ | ⟨hc, hs, he⟩ | ⟨hc, hs, he⟩ <;> rw [he]
  · exact h
  · refine ⟨?_, rfl, rfl, h.stopped, h.pendReg, h.idsPos, h.nextPos, ?_,
      h.volLo, h.volHi, h.filtLo, h.filtHi, h.speedLo, h.speedHi, ?_, ?_,
      h.wfStore⟩
    · intro hip
      rw [h.playCtx hip] at hc
      cases hc
    · intro h'
      cases h'
    · intro _
      exact h.noCtxMuted hc
    · intro _
      exact h.noCtxVol hc
  · refine ⟨fun _ => rfl, rfl, rfl, h.stopped, h.pendReg, h.idsPos, h.nextPos,
      fun _ => rfl, ?_, ?_, h.filtLo, h.filtHi, h.speedLo, h.speedHi, ?_, ?_,
      h.wfStore⟩
    · show 0 ≤ w.store.volume.getD (7/10)
      cases hv : w.store.volume with
      | none => norm_num
      | some v => simpa using (h.wfStore v hv).1
    · show w.store.volume.getD (7/10) ≤ 1
      cases hv : w.store.volume with
      | none => norm_num
      | some v => simpa using (h.wfStore v hv).2
    · intro h'
      cases h'
    · intro h'
      cases h'

theorem initAudio_ok_ctx {w : World} (hok : (initAudio w).2 = true) :
    (initAudio w).1.ctx = true := by
  rcases initAudio_spec w with ⟨hc, he⟩ | ⟨hc, hs, he⟩ | ⟨hc, hs, he⟩ <;> rw [he]
  · exact hc
  · rw [he] at hok
    cases hok

theorem clamp01_lo (v : ℚ) : 0 ≤ max 0 (min 1 v) := le_max_left _ _

theorem clamp01_hi (v : ℚ) : max 0 (min 1 v) ≤ 1 :=
  max_le (by norm_num) (min_le_left _ _)

/-- `setVolume` on a state where initialization succeeds with a live
master gain node. -/
theorem setVolume_eq {w : World} (v : ℚ)
    (hok : (initAudio w).2 = true) (hmg : (initAudio w).1.masterGain = true) :
    setVolume v w =
      { (initAudio w).1 with
        currentVolume := max 0 (min 1 v),
        masterGainValue :=
          if (initAudio w).1.isMuted then (initAudio w).1.masterGainValue
          else max 0 (min 1 v),
        store := { (initAudio w).1.store with volume := some (max 0 (min 1 v)) } } := by
  unfold setVolume
  dsimp only
  rw [if_neg (by simp [hok, hmg])]
  by_cases hm : (initAudio w).1.isMuted = true
  · rw [if_neg (by simp [hm]), if_pos hm]
  · rw [if_pos (by simp at hm; simp [hm]), if_neg hm]

/-- `setVolume` is a no-op when initialization fails or the master gain
node is missing. -/
theorem setVolume_noop {w : World} (v : ℚ)
    (hng : ¬((initAudio w).2 = true ∧ (initAudio w).1.masterGain = true)) :
    setVolume v w = (initAudio w).1 := by
  unfold setVolume
  dsimp only
  rw [if_pos ?_]
  rcases Bool.eq_false_or_eq_true (initAudio w).2 with h2 | h2 <;>
    rcases Bool.eq_false_or_eq_true (initAudio w).1.masterGain with hm | hm <;>
      simp [h2, hm] at hng ⊢

theorem inv_setVolume {w : World} (v : ℚ) (h : Inv w) : Inv (setVolume v w) := by
  have hI := inv_initAudio h
  by_cases hguard : (initAudio w).2 = true ∧ (initAudio w).1.masterGain = true
  · rw [setVolume_eq v hguard.1 hguard.2]
    have hctx := initAudio_ok_ctx hguard.1
    refine ⟨hI.playCtx, hI.mgEq, hI.anEq, hI.stopped, hI.pendReg, hI.idsPos,
      hI.nextPos, ?_, clamp01_lo v, clamp01_hi v, hI.filtLo, hI.filtHi,
      hI.speedLo, hI.speedHi, ?_, ?_, ?_⟩
    · intro _
      show (if (initAudio w).1.isMuted then (initAudio w).1.masterGainValue
          else max 0 (min 1 v)) =
        if (initAudio w).1.isMuted then 0 else max 0 (min 1 v)
      by_cases hm : (initAudio w).1.isMuted = true
      · rw [if_pos hm, if_pos hm]
        have hg := hI.gainSettled hctx
        rw [if_pos hm] at hg
        exact hg
      · rw [if_neg hm, if_neg hm]
    · intro h'
      rw [hctx] at h'
      cases h'
    · intro h'
      rw [hctx] at h'
      cases h'
    · intro v' hv'
      have hv2 : max 0 (min 1 v) = v' := Option.some.inj hv'
      exact hv2 ▸ ⟨clamp01_lo v, clamp01_hi v⟩
  · rw [setVolume_noop v hguard]
    exact hI

/-- `toggleMute` on a state where initialization succeeds with a live
master gain node: muting case when currently unmuted, unmuting case when
currently muted. -/
theorem toggleMute_eq {w : World}
    (hok : (initAudio w).2 = true) (hmg : (initAudio w).1.masterGain = true) :
    toggleMute w =
      (if (initAudio w).1.isMuted then
        { (initAudio w).1 with
          isMuted := false,
          masterGainValue := (initAudio w).1.currentVolume,
          store := { (initAudio w).1.store with muted := false } }
      else
        { (initAudio w).1 with
          isMuted := true,
          currentVolume :=
            if (initAudio w).1.masterGainValue > 1/1000
            then (initAudio w).1.masterGainValue
            else (initAudio w).1.currentVolume,
          masterGainValue := 0,
          store := { (initAudio w).1.store with muted := true } }) := by
  unfold toggleMute
  dsimp only
  rw [if_neg (by simp [hok, hmg])]
  by_cases hm : (initAudio w).1.isMuted = true
  · rw [if_pos hm, if_neg (by simp [hm])]
    simp [hm]
  · have hm' : (initAudio w).1.isMuted = false := by simpa using hm
    rw [if_neg hm, if_pos (by simp [hm'])]
    by_cases hg : (initAudio w).1.masterGainValue > 1/1000
    · rw [if_pos hg, if_pos hg]
      simp [hm']
    · rw [if_neg hg, if_neg hg]
      simp [hm']

/-- `toggleMute` is a no-op when initialization fails or the master gain
node is missing. -/
theorem toggleMute_noop {w : World}
    (hng : ¬((initAudio w).2 = true ∧ (initAudio w).1.masterGain = true)) :
    toggleMute w = (initAudio w).1 := by
  unfold toggleMute
  dsimp only
  rw [if_pos ?_]
  rcases Bool.eq_false_or_eq_true (initAudio w).2 with h2 | h2 <;>
    rcases Bool.eq_false_or_eq_true (initAudio w).1.masterGain with hm | hm <;>
      simp [h2, hm] at hng ⊢

theorem inv_toggleMute {w : World} (h : Inv w) : Inv (toggleMute w) := by
  have hI := inv_initAudio h
  by_cases hguard : (initAudio w).2 = true ∧ (initAudio w).1.masterGain = true
  · rw [toggleMute_eq hguard.1 hguard.2]
    have hctx := initAudio_ok_ctx hguard.1
    have hg := hI.gainSettled hctx
    by_cases hm : (initAudio w).1.isMuted = true
    · rw [if_pos hm]
      refine ⟨hI.playCtx, hI.mgEq, hI.anEq, hI.stopped, hI.pendReg, hI.idsPos,
        hI.nextPos, fun _ => rfl, hI.volLo, hI.volHi, hI.filtLo, hI.filtHi,
        hI.speedLo, hI.speedHi, ?_, ?_, ?_⟩
      · intro h'
        exact absurd h' (by simp [hctx])
      · intro h'
        exact absurd h' (by simp [hctx])
      · intro v' hv'
        exact hI.wfStore v' hv'
    · rw [if_neg hm]
      rw [if_neg hm] at hg
      refine ⟨hI.playCtx, hI.mgEq, hI.anEq, hI.stopped, hI.pendReg, hI.idsPos,
        hI.nextPos, fun _ => rfl, ?_, ?_, hI.filtLo, hI.filtHi,
        hI.speedLo, hI.speedHi, ?_, ?_, ?_⟩
      · show 0 ≤ if (initAudio w).1.masterGainValue > 1/1000
          then (initAudio w).1.masterGainValue else (initAudio w).1.currentVolume
        rw [hg]
        simp only [ite_self]
        exact hI.volLo
      · show (if (initAudio w).1.masterGainValue > 1/1000
          then (initAudio w).1.masterGainValue else (initAudio w).1.currentVolume) ≤ 1
        rw [hg]
        simp only [ite_self]
        exact hI.volHi
      · intro h'
        exact absurd h' (by simp [hctx])
      · intro h'
        exact absurd h' (by simp [hctx])
      · intro v' hv'
        exact hI.wfStore v' hv'
  · rw [toggleMute_noop hguard]
    exact hI

theorem inv_setPadOscillatorType {w : World} (t : String) (h : Inv w) :
    Inv (setPadOscillatorType t w) := by
  unfold setPadOscillatorType
  split
  · exact ⟨h.playCtx, h.mgEq, h.anEq, h.stopped, h.pendReg, h.idsPos, h.nextPos,
      h.gainSettled, h.volLo, h.volHi, h.filtLo, h.filtHi, h.speedLo, h.speedHi,
      h.noCtxMuted, h.noCtxVol, h.wfStore⟩
  · exact inv_log_append h

theorem inv_setPadFilterFrequency {w : World} (q : ℚ) (h : Inv w) :
    Inv (setPadFilterFrequency q w) := by
  refine ⟨h.playCtx, h.mgEq, h.anEq, h.stopped, h.pendReg, h.idsPos, h.nextPos,
    h.gainSettled, h.volLo, h.volHi, ?_, ?_, h.speedLo, h.speedHi,
    h.noCtxMuted, h.noCtxVol, h.wfStore⟩
  · exact le_max_left _ _
  · exact max_le (by norm_num) (min_le_left _ _)

theorem inv_setChordSpeed {w : World} (q : ℚ) (h : Inv w) :
    Inv (setChordSpeed q w) := by
  refine ⟨h.playCtx, h.mgEq, h.anEq, h.stopped, h.pendReg, h.idsPos, h.nextPos,
    h.gainSettled, h.volLo, h.volHi, h.filtLo, h.filtHi, ?_, ?_,
    h.noCtxMuted, h.noCtxVol, h.wfStore⟩
  · exact le_max_left _ _
  · exact max_le (by norm_num) (min_le_left _ _)

/-- Every registered id (all positive) gets passed to `clearTimeout` by
`stopAmbient`. -/
theorem mem_clearedByStop {l : List RegTimer} (hpos : ∀ t ∈ l, 0 < t.timerId)
    {i : Nat} (hmem : i ∈ regIds l) : i ∈ clearedByStop l := by
  simp only [regIds, List.mem_map] at hmem
  obtain ⟨t, htl, hid⟩ := hmem
  unfold clearedByStop
  rw [List.mem_filterMap]
  refine ⟨t, htl, ?_⟩
  cases t with
  | plain j =>
    simp only [RegTimer.timerId] at hid
    simp [hid]
  | tagged j s =>
    have hj : 0 < j := by simpa [RegTimer.timerId] using hpos _ htl
    have hji : j = i := by simpa [RegTimer.timerId] using hid
    subst hji
    simp [Nat.pos_iff_ne_zero.mp hj]

theorem inv_stopAmbient {w : World} (h : Inv w) : Inv (stopAmbient w) := by
  unfold stopAmbient
  dsimp only
  split
  · exact h
  · next hguard =>
    have hpend : w.pending.filter
        (fun p => p.id ∉ clearedByStop w.activeTimers) = [] := by
      rw [List.filter_eq_nil_iff]
      intro p hp
      have := mem_clearedByStop h.idsPos (h.pendReg p hp)
      simp [this]
    refine ⟨?_, h.mgEq, h.anEq, fun _ => ⟨rfl, rfl, hpend⟩, ?_, ?_, h.nextPos,
      h.gainSettled, h.volLo, h.volHi, h.filtLo, h.filtHi, h.speedLo, h.speedHi,
      h.noCtxMuted, h.noCtxVol, h.wfStore⟩
    · intro h'
      cases h'
    · intro p hp
      rw [hpend] at hp
      simp at hp
    · intro t ht
      simp at ht

theorem inv_toggleHeartbeat {w w' : World} (h : Inv w)
    (he : toggleHeartbeat w = some w') : Inv w' := by
  unfold toggleHeartbeat at he
  dsimp only at he
  have hflag : Inv { w with heartbeatEnabled := !w.heartbeatEnabled } :=
    inv_copy h rfl rfl rfl rfl rfl rfl rfl rfl rfl rfl
      h.stopped h.pendReg h.idsPos h.nextPos
  split at he
  · split at he
    · cases he
      exact inv_createHeartbeat hflag
    · split at he
      · cases he
      · cases he
        exact inv_fadeOutUnits _ _ _ _ hflag
  · cases he
    exact hflag

theorem inv_toggleArpeggiator {w w' : World} (h : Inv w)
    (he : toggleArpeggiator w = some w') : Inv w' := by
  unfold toggleArpeggiator at he
  dsimp only at he
  have hflag : Inv { w with arpeggiatorEnabled := !w.arpeggiatorEnabled } :=
    inv_copy h rfl rfl rfl rfl rfl rfl rfl rfl rfl rfl
      h.stopped h.pendReg h.idsPos h.nextPos
  split at he
  · split at he
    · exact inv_createArpeggio hflag he
    · exact inv_stopArpeggioSequence hflag he
  · cases he
    exact hflag

theorem inv_startLayers {w w' : World} {tape : Nat → ℚ} (h : Inv w)
    (he : startLayers tape w = some w') : Inv w' := by
  unfold startLayers at he
  rcases Option.bind_eq_some.mp he with ⟨w1, hpad, hrest⟩
  have h1 := inv_createPad h hpad
  have h4 : Inv (createMelody (tshift 20 tape)
      (createTexture (createBassline (tshift 10 tape) w1))) :=
    inv_createMelody (inv_createTexture (inv_createBassline h1))
  dsimp only at hrest
  split at hrest
  · split at hrest
    · exact inv_createArpeggio (inv_createHeartbeat h4) hrest
    · cases hrest
      exact inv_createHeartbeat h4
  · split at hrest
    · exact inv_createArpeggio h4 hrest
    · cases hrest
      exact h4

theorem inv_startAmbient {w w' : World} {tape : Nat → ℚ} {rOk : Bool}
    (h : Inv w) (he : startAmbient tape rOk w = some w') : Inv w' := by
  unfold startAmbient at he
  dsimp only at he
  split at he
  · cases he
    exact inv_initAudio h
  · next hguard =>
    split at he
    · cases he
      exact inv_initAudio h
    · have hctx2 : (initAudio w).1.ctx = true := by
        by_contra hc
        simp only [Bool.not_eq_true] at hc
        simp [hc] at hguard
      have hI := inv_initAudio (w := w) h
      have hplayInv : Inv { (initAudio w).1 with isPlaying := true } := by
        refine ⟨fun _ => hctx2, hI.mgEq, hI.anEq, ?_, hI.pendReg, hI.idsPos,
          hI.nextPos, hI.gainSettled, hI.volLo, hI.volHi, hI.filtLo, hI.filtHi,
          hI.speedLo, hI.speedHi, hI.noCtxMuted, hI.noCtxVol, hI.wfStore⟩
        intro h'
        cases h'
      exact inv_startLayers (inv_setVolume _ hplayInv) he

theorem inv_applyVolume {w : World} (s : JSettings) (h : Inv w) :
    Inv (applyVolume s w) := by
  unfold applyVolume
  split
  · exact inv_setVolume _ h
  · exact h

theorem inv_applyMute {w : World} (s : JSettings) (h : Inv w) :
    Inv (applyMute s w) := by
  unfold applyMute
  split
  · split
    · exact inv_toggleMute h
    · exact h
  · exact h

theorem inv_applyOscType {w : World} (s : JSettings) (h : Inv w) :
    Inv (applyOscType s w) := by
  unfold applyOscType
  split
  · exact inv_setPadOscillatorType _ h
  · exact h

theorem inv_applyFilterFreq {w : World} (s : JSettings) (h : Inv w) :
    Inv (applyFilterFreq s w) := by
  unfold applyFilterFreq
  split
  · exact inv_setPadFilterFrequency _ h
  · exact h

theorem inv_applyChordSpeed {w : World} (s : JSettings) (h : Inv w) :
    Inv (applyChordSpeed s w) := by
  unfold applyChordSpeed
  split
  · exact inv_setChordSpeed _ h
  · exact h

theorem inv_applyHeartbeat {w w' : World} (s : JSettings) (h : Inv w)
    (he : applyHeartbeat s w = some w') : Inv w' := by
  unfold applyHeartbeat at he
  split at he
  · split at he
    · exact inv_toggleHeartbeat h he
    · cases he
      exact h
  · cases he
    exact h

theorem inv_applyArpeggiator {w w' : World} (s : JSettings) (h : Inv w)
    (he : applyArpeggiator s w = some w') : Inv w' := by
  unfold applyArpeggiator at he
  split at he
  · split at he
    · exact inv_toggleArpeggiator h he
    · cases he
      exact h
  · cases he
    exact h

theorem inv_applySettings {w w' : World} {s : Option JSettings} (h : Inv w)
    (he : applySettings s w = some w') : Inv w' := by
  cases s with
  | none =>
    cases he
    exact h
  | some s =>
    simp only [applySettings] at he
    rcases Option.bind_eq_some.mp he with ⟨w6, h6, h7⟩
    exact inv_applyArpeggiator s
      (inv_applyHeartbeat s
        (inv_applyChordSpeed s (inv_applyFilterFreq s (inv_applyOscType s
          (inv_applyMute s (inv_applyVolume s h))))) h6) h7

theorem inv_runCallback {w w' : World} {tape : Nat → ℚ} {cb : Callback}
    (h : Inv w) (hp : w.isPlaying = true)
    (he : runCallback tape cb w = some w') : Inv w' := by
  cases cb <;> simp only [runCallback] at he
  case chordProgression i => exact inv_runChordProgression h he
  case playBassNote i =>
    cases he
    exact inv_runPlayBassNote h
  case playPhrase i =>
    cases he
    exact inv_runPlayPhrase h
  case melodyNote f =>
    cases he
    exact inv_runMelodyNote h
  case melodyCleanup i =>
    cases he
    exact inv_runUnitCleanup h
  case playBeatPair =>
    cases he
    exact inv_runPlayBeatPair h
  case heartbeatCleanup i =>
    cases he
    exact inv_runUnitCleanup h
  case playArpNote ns i => exact inv_playArpNote h hp he
  case arpCleanup i =>
    cases he
    exact inv_runUnitCleanup h

theorem inv_fireTimer {w w' : World} {tape : Nat → ℚ} {i : Nat}
    (h : Inv w) (he : fireTimer tape i w = some w') : Inv w' := by
  unfold fireTimer at he
  split at he
  · cases he
  · next p hp =>
    have hplay : w.isPlaying = true := by
      by_contra hnp
      simp only [Bool.not_eq_true] at hnp
      rw [(h.stopped hnp).2.2] at hp
      simp at hp
    have hI : Inv { w with pending := w.pending.eraseIdx i } := by
      refine inv_copy h rfl rfl rfl rfl rfl rfl rfl rfl rfl rfl ?_ ?_
        h.idsPos h.nextPos
      · intro hs
        rw [hplay] at hs
        cases hs
      · intro p' hp'
        exact h.pendReg p' (List.eraseIdx_subset _ _ hp')
    exact inv_runCallback hI hplay he

theorem inv_initialWorld (sup : Bool) (st : Store) (hst : WFStore st) :
    Inv (initialWorld sup st) := by
  refine ⟨fun h' => absurd h' (by simp [initialWorld]), rfl, rfl,
    fun _ => ⟨rfl, rfl, rfl⟩, ?_, ?_, ?_,
    fun h' => absurd h' (by simp [initialWorld]),
    by norm_num [initialWorld], by norm_num [initialWorld],
    by norm_num [initialWorld], by norm_num [initialWorld],
    by norm_num [initialWorld], by norm_num [initialWorld],
    fun _ => rfl, fun _ => rfl, hst⟩
  · intro p hp
    simp [initialWorld] at hp
  · intro t ht
    simp [initialWorld] at ht
  · norm_num [initialWorld]

/-- Every reachable engine state satisfies the invariant. -/
theorem reachable_inv {w : World} (h : Reachable w) : Inv w := by
  induction h with
  | base sup st hst => exact inv_initialWorld sup st hst
  | step w w' hr hs ih =>
    cases hs with
    | init => exact inv_initAudio ih
    | start w2 tape rOk he => exact inv_startAmbient ih he
    | stop => exact inv_stopAmbient ih
    | mute => exact inv_toggleMute ih
    | vol v => exact inv_setVolume v ih
    | oscType t => exact inv_setPadOscillatorType t ih
    | filterFreq q => exact inv_setPadFilterFrequency q ih
    | chordSpeed q => exact inv_setChordSpeed q ih
    | heartbeat w2 he => exact inv_toggleHeartbeat ih he
    | arpeggiator w2 he => exact inv_toggleArpeggiator ih he
    | applySet w2 s he => exact inv_applySettings ih he
    | fire w2 tape i he => exact inv_fireTimer ih he

/-! ## Claim C7 -/

/-- C7: Every parameter setter validates its input: `setPadFilterFrequency`
clamps numeric input into [100, 10000] (so -5 maps to 100 and 999999 to
10000), `setChordSpeed` clamps into [4000, 30000] (so 1 maps to 4000 and
999999 to 30000), `setVolume` clamps into [0.0, 1.0] (when the audio graph
initializes, which is its guard for storing at all), and
`setPadOscillatorType` given a value outside the set sine, triangle,
square, sawtooth emits a warning and leaves the stored oscillator type
unchanged, while a valid value is stored. -/
theorem setters_validate :
    (∀ w : World, ∀ q : ℚ,
      (setPadFilterFrequency q w).padFilterFreq = max 100 (min 10000 q))
    ∧ (∀ w : World, (setPadFilterFrequency (-5) w).padFilterFreq = 100)
    ∧ (∀ w : World, (setPadFilterFrequency 999999 w).padFilterFreq = 10000)
    ∧ (∀ w : World, ∀ q : ℚ,
      (setChordSpeed q w).chordSpeedMs = max 4000 (min 30000 q))
    ∧ (∀ w : World, (setChordSpeed 1 w).chordSpeedMs = 4000)
    ∧ (∀ w : World, (setChordSpeed 999999 w).chordSpeedMs = 30000)
    ∧ (∀ w : World, ∀ v : ℚ,
      (initAudio w).2 = true → (initAudio w).1.masterGain = true →
      (setVolume v w).currentVolume = max 0 (min 1 v)
      ∧ 0 ≤ (setVolume v w).currentVolume
      ∧ (setVolume v w).currentVolume ≤ 1)
    ∧ (∀ w : World, ∀ t : String, t ∉ validOscTypes →
      (setPadOscillatorType t w).padOscType = w.padOscType
      ∧ Event.warnOscType t ∈ (setPadOscillatorType t w).log)
    ∧ (∀ w : World, ∀ t : String, t ∈ validOscTypes →
      (setPadOscillatorType t w).padOscType = t) := by
  refine ⟨fun w q => rfl, ?_, ?_, fun w q => rfl, ?_, ?_, ?_, ?_, ?_⟩
  · intro w
    show max 100 (min 10000 (-5 : ℚ)) = 100
    norm_num
  · intro w
    show max 100 (min 10000 (999999 : ℚ)) = 10000
    norm_num
  · intro w
    show max 4000 (min 30000 (1 : ℚ)) = 4000
    norm_num
  · intro w
    show max 4000 (min 30000 (999999 : ℚ)) = 30000
    norm_num
  · intro w v hok hmg
    rw [setVolume_eq v hok hmg]
    exact ⟨rfl, clamp01_lo v, clamp01_hi v⟩
  · intro w t ht
    unfold setPadOscillatorType
    rw [if_neg ht]
    exact ⟨rfl, by simp⟩
  · intro w t ht
    unfold setPadOscillatorType
    rw [if_pos ht]

/-- Witness for C7 at concrete inputs. -/
theorem setters_validate_witness :
    (setPadFilterFrequency (-5) (initialWorld true ⟨false, none⟩)).padFilterFreq = 100
    ∧ (setVolume 2 (initialWorld true ⟨false, none⟩)).currentVolume = 1
    ∧ (setPadOscillatorType "pulse" (initialWorld true ⟨false, none⟩)).padOscType
        = "triangle" := by
  refine ⟨setters_validate.2.1 _, ?_, ?_⟩
  · have h := setters_validate.2.2.2.2.2.2.1 (initialWorld true ⟨false, none⟩) 2
      (by decide) (by decide)
    rw [h.1]
    decide
  · have h := setters_validate.2.2.2.2.2.2.2.1 (initialWorld true ⟨false, none⟩)
      "pulse" (by decide)
    exact h.1

/-! ## Claims C5 and C1: stopping -/

/-- Self-cleanup on an empty unit registry is the identity. -/
theorem runUnitCleanup_empty {w : World} (ho : w.activeOscillators = [])
    (oid : Nat) : runUnitCleanup oid w = w := by
  unfold runUnitCleanup
  rw [ho]
  simp only [List.filter_nil]
  rw [← ho]

/-- `stopAmbient` is a no-op when the context is absent or nothing is
playing. -/
theorem stopAmbient_noop {w : World}
    (hng : ¬(w.ctx = true ∧ w.isPlaying = true)) : stopAmbient w = w := by
  unfold stopAmbient
  dsimp only
  rw [if_pos ?_]
  rcases Bool.eq_false_or_eq_true w.ctx with hc | hc <;>
    rcases Bool.eq_false_or_eq_true w.isPlaying with hp | hp <;>
      simp [hc, hp] at hng ⊢

/-- The components of a real stop. -/
theorem stopAmbient_run {w : World} (hc : w.ctx = true) (hp : w.isPlaying = true) :
    (stopAmbient w).isPlaying = false
    ∧ (stopAmbient w).activeTimers = []
    ∧ (stopAmbient w).activeOscillators = []
    ∧ (stopAmbient w).cancelled = w.cancelled ++ clearedByStop w.activeTimers
    ∧ (stopAmbient w).pending =
        w.pending.filter (fun p => p.id ∉ clearedByStop w.activeTimers)
    ∧ (stopAmbient w).ctx = w.ctx := by
  unfold stopAmbient
  dsimp only
  rw [if_neg (by simp [hc, hp])]
  exact ⟨rfl, rfl, rfl, rfl, rfl, rfl⟩

/-- Under the invariant, every pending timer id is swept by `stopAmbient`,
so the pending set drains completely. -/
theorem stopAmbient_pending_empty {w : World} (h : Inv w) :
    w.pending.filter (fun p => p.id ∉ clearedByStop w.activeTimers) = [] := by
  rw [List.filter_eq_nil_iff]
  intro p hp
  have := mem_clearedByStop h.idsPos (h.pendReg p hp)
  simp [this]

/-- C5: `stopAmbient` is idempotent: for every engine state (every state
the engine can reach), calling it twice in a row produces the same end
state as calling it once — `isPlaying = false` and both registries empty
— and the second call, made while already stopped, changes no state. -/
theorem stopAmbient_idempotent :
    ∀ w : World, Reachable w →
      stopAmbient (stopAmbient w) = stopAmbient w
      ∧ (stopAmbient w).isPlaying = false
      ∧ (stopAmbient w).activeTimers = []
      ∧ (stopAmbient w).activeOscillators = []
      ∧ (w.isPlaying = false → stopAmbient w = w) := by
  intro w hr
  have h := reachable_inv hr
  by_cases hcp : w.ctx = true ∧ w.isPlaying = true
  · obtain ⟨h1, h2, h3, _, _, _⟩ := stopAmbient_run hcp.1 hcp.2
    refine ⟨stopAmbient_noop (by simp [h1]), h1, h2, h3, ?_⟩
    intro hf
    rw [hcp.2] at hf
    cases hf
  · have hno := stopAmbient_noop hcp
    have hp : w.isPlaying = false := by
      rcases Bool.eq_false_or_eq_true w.isPlaying with hp | hp
      · exact absurd ⟨h.playCtx hp, hp⟩ hcp
      · exact hp
    obtain ⟨ho, ht, _⟩ := h.stopped hp
    rw [hno]
    exact ⟨hno, hp, ht, ho, fun _ => rfl⟩

/-- Witness for C5 at a concrete reachable state (the initial state). -/
theorem stopAmbient_idempotent_witness :
    stopAmbient (stopAmbient (initialWorld true ⟨false, none⟩))
      = stopAmbient (initialWorld true ⟨false, none⟩)
    ∧ (stopAmbient (initialWorld true ⟨false, none⟩)).isPlaying = false :=
  ⟨(stopAmbient_idempotent _ (Reachable.base true ⟨false, none⟩ (by decide))).1,
   (stopAmbient_idempotent _ (Reachable.base true ⟨false, none⟩ (by decide))).2.1⟩

/-- C1: After `stopAmbient()` is called while playing (on a state
satisfying the reachable-state invariant `Inv`), `isPlaying` is false,
both registries are empty, every timer pending at the moment of the call
has been passed to `clearTimeout` and removed, so no scheduled callback
can fire afterwards; the self-cleanup callbacks of units are harmless in
that state: they only filter an already-cleared unit registry and leave
the state unchanged. -/
theorem stopAmbient_cancels_all :
    ∀ w : World, Inv w → w.isPlaying = true →
      (stopAmbient w).isPlaying = false
      ∧ (stopAmbient w).activeTimers = []
      ∧ (stopAmbient w).activeOscillators = []
      ∧ (∀ p ∈ w.pending, p.id ∈ (stopAmbient w).cancelled)
      ∧ (stopAmbient w).pending = []
      ∧ (∀ tape : Nat → ℚ, ∀ i : Nat, fireTimer tape i (stopAmbient w) = none)
      ∧ (∀ tape : Nat → ℚ, ∀ oid : Nat,
          runCallback tape (.melodyCleanup oid) (stopAmbient w)
              = some (stopAmbient w)
          ∧ runCallback tape (.heartbeatCleanup oid) (stopAmbient w)
              = some (stopAmbient w)
          ∧ runCallback tape (.arpCleanup oid) (stopAmbient w)
              = some (stopAmbient w)) := by
  intro w h hp
  have hc : w.ctx = true := h.playCtx hp
  obtain ⟨h1, h2, h3, h4, h5, _⟩ := stopAmbient_run hc hp
  have hpe : (stopAmbient w).pending = [] := by
    rw [h5]
    exact stopAmbient_pending_empty h
  have hclean : ∀ oid : Nat,
      runUnitCleanup oid (stopAmbient w) = stopAmbient w := by
    intro oid
    exact runUnitCleanup_empty h3 oid
  refine ⟨h1, h2, h3, ?_, hpe, ?_, ?_⟩
  · intro p hpmem
    rw [h4, List.mem_append]
    exact Or.inr (mem_clearedByStop h.idsPos (h.pendReg p hpmem))
  · intro tape i
    unfold fireTimer
    rw [hpe]
    simp
  · intro tape oid
    refine ⟨?_, ?_, ?_⟩ <;>
      simp only [runCallback, hclean]

/-- Witness for C1 at a concrete playing state with pending timers. -/
theorem stopAmbient_cancels_all_witness :
    (stopAmbient wPlaying).isPlaying = false
    ∧ (stopAmbient wPlaying).pending = []
    ∧ (∀ p ∈ wPlaying.pending, p.id ∈ (stopAmbient wPlaying).cancelled) :=
  ⟨(stopAmbient_cancels_all wPlaying (by decide) (by decide)).1,
   (stopAmbient_cancels_all wPlaying (by decide) (by decide)).2.2.2.2.1,
   (stopAmbient_cancels_all wPlaying (by decide) (by decide)).2.2.2.1⟩

/-! ## Claim C3: toggling the arpeggiator off -/

/-- `stopArpeggioSequence` on a live context, as one equation. -/
theorem stopArpeggioSequence_eq {w : World} (hc : w.ctx = true) :
    stopArpeggioSequence w = some (fadeOutUnits "arpeggio" (1/10000) (1/10) (1/5)
      { w with
        activeTimers := w.activeTimers.filter (fun t => !t.isArpNote),
        pending := w.pending.filter (fun p => p.id ∉
          (w.activeTimers.filter (fun t => t.isArpNote)).map RegTimer.timerId),
        cancelled := w.cancelled ++
          (w.activeTimers.filter (fun t => t.isArpNote)).map RegTimer.timerId,
        log := w.log ++ [Event.stopSeq] }) := by
  unfold stopArpeggioSequence
  dsimp only
  rw [if_neg (by simp [hc])]

/-- C3: Calling `toggleArpeggiator` while playing with the arpeggiator
enabled removes from the registries every arpeggio-tagged active unit
(fading it out over a ramp within 0.1-0.2 s and stopping its oscillator
at 0.2 s) and cancels and removes every pending timer tagged
`arpeggio_note`, while every non-arpeggio-tagged active unit and every
untagged timer remains in its registry unchanged (the remaining
registries are exactly the filters keeping those entries). -/
theorem toggleArpeggiator_off_clears :
    ∀ w : World, Inv w → w.isPlaying = true → w.arpeggiatorEnabled = true →
      ∃ w', toggleArpeggiator w = some w'
        ∧ w'.activeOscillators
            = w.activeOscillators.filter (fun u => u.type ≠ "arpeggio")
        ∧ (∀ u ∈ w.activeOscillators, u.type = "arpeggio" →
            ∃ d : ℚ, 1/10 ≤ d ∧ d ≤ 1/5
              ∧ Event.fade u.id (1/10000) d ∈ w'.log.drop w.log.length
              ∧ Event.stopOsc u.id (1/5) ∈ w'.log.drop w.log.length)
        ∧ w'.activeTimers = w.activeTimers.filter (fun t => !t.isArpNote)
        ∧ (∀ t ∈ w.activeTimers, t.isArpNote = true →
            t.timerId ∈ w'.cancelled ∧ ∀ p ∈ w'.pending, p.id ≠ t.timerId)
        ∧ (∀ p ∈ w.pending,
            (∀ t ∈ w.activeTimers, t.isArpNote = true → p.id ≠ t.timerId) →
            p ∈ w'.pending) := by
  intro w h hp ha
  have hc : w.ctx = true := h.playCtx hp
  have he : toggleArpeggiator w = stopArpeggioSequence
      { w with arpeggiatorEnabled := !w.arpeggiatorEnabled } := by
    unfold toggleArpeggiator
    dsimp only
    rw [if_pos (show ({ w with arpeggiatorEnabled := !w.arpeggiatorEnabled
      } : World).isPlaying = true from hp),
      if_neg (by simp [ha])]
  rw [he, stopArpeggioSequence_eq (show ({ w with
    arpeggiatorEnabled := !w.arpeggiatorEnabled } : World).ctx = true from hc)]
  refine ⟨_, rfl, rfl, ?_, rfl, ?_, ?_⟩
  · intro u hu hua
    refine ⟨1/10, by norm_num, by norm_num, ?_, ?_⟩
    · show Event.fade u.id (1/10000) (1/10) ∈
        ((w.log ++ [Event.stopSeq]) ++ _).drop w.log.length
      rw [List.append_assoc, List.drop_left, List.mem_append]
      right
      rw [List.mem_flatMap]
      exact ⟨u, List.mem_filter.mpr ⟨hu, by simp [hua]⟩, by simp⟩
    · show Event.stopOsc u.id (1/5) ∈
        ((w.log ++ [Event.stopSeq]) ++ _).drop w.log.length
      rw [List.append_assoc, List.drop_left, List.mem_append]
      right
      rw [List.mem_flatMap]
      exact ⟨u, List.mem_filter.mpr ⟨hu, by simp [hua]⟩, by simp⟩
  · intro t ht hta
    constructor
    · show t.timerId ∈ w.cancelled ++ _
      rw [List.mem_append]
      right
      rw [List.mem_map]
      exact ⟨t, List.mem_filter.mpr ⟨ht, hta⟩, rfl⟩
    · intro p hpf
      simp only [fadeOutUnits, List.mem_filter] at hpf
      have hnot : p.id ∉
          (w.activeTimers.filter (fun t => t.isArpNote)).map RegTimer.timerId := by
        simpa using hpf.2
      intro hEq
      exact hnot (by
        rw [List.mem_map]
        exact ⟨t, List.mem_filter.mpr ⟨ht, hta⟩, hEq.symm⟩)
  · intro p hpm hnone
    show p ∈ w.pending.filter _
    rw [List.mem_filter]
    refine ⟨hpm, ?_⟩
    simp only [decide_eq_true_eq]
    intro hmem
    rw [List.mem_map] at hmem
    obtain ⟨t, htf, hid⟩ := hmem
    rw [List.mem_filter] at htf
    exact hnone t htf.1 htf.2 hid.symm

/-- Witness for C3 at a concrete playing state with one arpeggio unit,
one pad unit, one tagged and one plain timer. -/
theorem toggleArpeggiator_off_clears_witness :
    ∃ w', toggleArpeggiator wPlaying = some w'
      ∧ w'.activeOscillators = [⟨2, "pad"⟩] := by
  obtain ⟨w', he, hosc, _⟩ :=
    toggleArpeggiator_off_clears wPlaying (by decide) (by decide) (by decide)
  refine ⟨w', he, ?_⟩
  rw [hosc]
  decide

theorem initAudio_of_ctx {w : World} (hc : w.ctx = true) :
    initAudio w = (w, true) := by
  rcases initAudio_spec w with ⟨_, he⟩ | ⟨hcf, _, _⟩ | ⟨hcf, _, _⟩
  · exact he
  · rw [hc] at hcf
    cases hcf
  · rw [hc] at hcf
    cases hcf

theorem initAudio_isPlaying (w : World) :
    (initAudio w).1.isPlaying = w.isPlaying := by
  rcases initAudio_spec w with ⟨_, he⟩ | ⟨_, _, he⟩ | ⟨_, _, he⟩ <;> rw [he]

/-! ## Claim C4: Pad before Arpeggio -/

theorem SameFields.refl (w : World) : SameFields w w :=
  ⟨rfl, rfl, rfl, rfl, rfl, rfl, rfl⟩

theorem SameFields.trans {w₁ w₂ w₃ : World}
    (h₁ : SameFields w₁ w₂) (h₂ : SameFields w₂ w₃) : SameFields w₁ w₃ :=
  ⟨h₁.notes.trans h₂.notes, h₁.ctx.trans h₂.ctx, h₁.mg.trans h₂.mg,
   h₁.play.trans h₂.play, h₁.hb.trans h₂.hb, h₁.arp.trans h₂.arp,
   h₁.speed.trans h₂.speed⟩

theorem sameFields_pushTimer (cb : Callback) (d : ℚ) (tag : Option String)
    (w : World) : SameFields (pushTimer cb d tag w) w :=
  ⟨rfl, rfl, rfl, rfl, rfl, rfl, rfl⟩

theorem sameFields_pushUnit (ty : String) (w : World) :
    SameFields (pushUnit ty w).1 w :=
  ⟨rfl, rfl, rfl, rfl, rfl, rfl, rfl⟩

theorem sameFields_fadeOutUnits (ty : String) (a b c : ℚ) (w : World) :
    SameFields (fadeOutUnits ty a b c w) w :=
  ⟨rfl, rfl, rfl, rfl, rfl, rfl, rfl⟩

theorem sameFields_pushPadUnits (l : List ℚ) (w : World) :
    SameFields (pushPadUnits l w) w := by
  induction l generalizing w with
  | nil => exact SameFields.refl w
  | cons a l ih =>
    rw [pushPadUnits, List.foldl_cons]
    exact (ih _).trans ((sameFields_pushUnit _ _).trans (sameFields_pushUnit _ _))

theorem playArpNote_run {ns : List ℚ} {i : Nat} {w : World} (hc : w.ctx = true) :
    ∃ w', playArpNote ns i w = some w' ∧ w'.log = w.log ∧ SameFields w' w := by
  unfold playArpNote
  rw [if_neg (by simp [hc])]
  dsimp only
  split
  · exact ⟨_, rfl, rfl,
      (sameFields_pushTimer _ _ _ _).trans
        ((sameFields_pushTimer _ _ _ _).trans (sameFields_pushUnit _ _))⟩
  · exact ⟨_, rfl, rfl,
      (sameFields_pushTimer _ _ _ _).trans (sameFields_pushUnit _ _)⟩

theorem createArpeggio_some {w : World} (hc : w.ctx = true) :
    ∃ w', createArpeggio w = some w' ∧ SameFields w' w := by
  unfold createArpeggio
  split
  · exact ⟨_, rfl, SameFields.refl w⟩
  · obtain ⟨w', he, _, hf⟩ := playArpNote_run
      (w := { w with log := w.log ++
        [Event.arpCreate (w.currentPadChordNotes ++
          [w.currentPadChordNotes.getD 1 0 * 2])] }) (by simpa using hc)
    exact ⟨w', he, hf.trans ⟨rfl, rfl, rfl, rfl, rfl, rfl, rfl⟩⟩

theorem stopArpeggioSequence_some {w : World} (hc : w.ctx = true) :
    ∃ w', stopArpeggioSequence w = some w' ∧ SameFields w' w := by
  rw [stopArpeggioSequence_eq hc]
  exact ⟨_, rfl,
    (sameFields_fadeOutUnits _ _ _ _ _).trans ⟨rfl, rfl, rfl, rfl, rfl, rfl, rfl⟩⟩

/-- The arpeggiator restart pair of the pad transition. -/
theorem stopThenCreate_some {w : World} (hc : w.ctx = true) :
    ∃ w', (stopArpeggioSequence w).bind createArpeggio = some w'
      ∧ SameFields w' w := by
  obtain ⟨wS, heS, hfS⟩ := stopArpeggioSequence_some hc
  obtain ⟨wA, heA, hfA⟩ := createArpeggio_some (hfS.ctx.trans hc)
  rw [heS]
  exact ⟨wA, heA, hfA.trans hfS⟩

/-- `chordProgression` on a playing, initialized state: it always
succeeds and leaves `currentPadChordNotes` set to the emitted chord. -/
theorem runChordProgression_run (tape : Nat → ℚ) (i : Nat) {w : World}
    (hp : w.isPlaying = true) (hc : w.ctx = true) :
    ∃ w', runChordProgression tape i w = some w'
      ∧ w'.currentPadChordNotes = chords.getD i []
      ∧ w'.ctx = true ∧ w'.masterGain = w.masterGain ∧ w'.isPlaying = true
      ∧ w'.heartbeatEnabled = w.heartbeatEnabled
      ∧ w'.arpeggiatorEnabled = w.arpeggiatorEnabled := by
  unfold runChordProgression
  rw [if_neg (by simp [hp, hc])]
  dsimp only
  have hmid : ∀ d : ℚ, SameFields
      (pushTimer (.chordProgression ((i + 1) % chords.length)) d none
        (pushPadUnits (chords.getD i [])
          (fadeOutUnits "pad" (1/10000) 4 (41/10)
            { w with currentPadChordNotes := chords.getD i [] })))
      { w with currentPadChordNotes := chords.getD i [] } :=
    fun d => (sameFields_pushTimer _ _ _ _).trans
      ((sameFields_pushPadUnits _ _).trans (sameFields_fadeOutUnits _ _ _ _ _))
  have hXctx : ∀ d : ℚ, (pushTimer (.chordProgression ((i + 1) % chords.length))
      d none (pushPadUnits (chords.getD i [])
        (fadeOutUnits "pad" (1/10000) 4 (41/10)
          { w with currentPadChordNotes := chords.getD i [] }))).ctx = true :=
    fun d => ((hmid d).ctx).trans hc
  split
  · obtain ⟨wA, heA, hfA⟩ := stopThenCreate_some (hXctx _)
    refine ⟨wA, heA, ?_, ?_, ?_, ?_, ?_, ?_⟩
    · rw [hfA.notes, (hmid _).notes]
    · rw [hfA.ctx]; exact hXctx _
    · rw [hfA.mg, (hmid _).mg]
    · rw [hfA.play, (hmid _).play]; exact hp
    · rw [hfA.hb, (hmid _).hb]
    · rw [hfA.arp, (hmid _).arp]
  · refine ⟨_, rfl, ?_, ?_, ?_, ?_, ?_, ?_⟩
    · rw [(hmid _).notes]
    · exact hXctx _
    · rw [(hmid _).mg]
    · rw [(hmid _).play]; exact hp
    · rw [(hmid _).hb]
    · rw [(hmid _).arp]

theorem chords_getD_ne_nil : ∀ i : Nat, i < chords.length → chords.getD i [] ≠ [] := by
  decide

theorem randIndex_lt (r : ℚ) {n : Nat} (hn : 0 < n) : randIndex r n < n :=
  Nat.mod_lt _ hn

/-- `createPad` on a playing, initialized state: it succeeds and leaves a
non-empty chord in `currentPadChordNotes`. -/
theorem createPad_run (tape : Nat → ℚ) {w : World}
    (hc : w.ctx = true) (hmg : w.masterGain = true) (hp : w.isPlaying = true) :
    ∃ wp, createPad tape w = some wp
      ∧ wp.currentPadChordNotes ≠ []
      ∧ wp.ctx = true ∧ wp.masterGain = w.masterGain ∧ wp.isPlaying = true
      ∧ wp.heartbeatEnabled = w.heartbeatEnabled
      ∧ wp.arpeggiatorEnabled = w.arpeggiatorEnabled := by
  unfold createPad
  rw [if_neg (by simp [hc, hmg, hp])]
  dsimp only
  obtain ⟨wp, he, hn, h1, h2, h3, h4, h5⟩ := runChordProgression_run
    (tshift 1 tape) (randIndex (tape 0) chords.length)
    (w := { w with currentPadChordNotes := chords.getD (randIndex (tape 0) chords.length) [] })
    hp hc
  refine ⟨wp, he, ?_, h1, h2, h3, h4, h5⟩
  rw [hn]
  exact chords_getD_ne_nil _ (randIndex_lt _ (by norm_num [chords]))

theorem createBassline_sameFields (tape : Nat → ℚ) (w : World) :
    SameFields (createBassline tape w) w := by
  unfold createBassline
  split
  · exact SameFields.refl w
  · exact sameFields_pushTimer _ _ _ _

theorem createTexture_sameFields (w : World) :
    SameFields (createTexture w) w := by
  unfold createTexture
  split
  · exact SameFields.refl w
  · split
    · exact SameFields.refl w
    · exact sameFields_pushUnit _ _

theorem createMelody_sameFields (tape : Nat → ℚ) (w : World) :
    SameFields (createMelody tape w) w := by
  unfold createMelody
  split
  · exact SameFields.refl w
  · exact sameFields_pushTimer _ _ _ _

theorem playSingleBeat_sameFields (off : ℚ) (w : World) :
    SameFields (playSingleBeat off w) w := by
  unfold playSingleBeat
  split
  · exact SameFields.refl w
  · exact (sameFields_pushTimer _ _ _ _).trans (sameFields_pushUnit _ _)

theorem createHeartbeat_sameFields (w : World) :
    SameFields (createHeartbeat w) w := by
  unfold createHeartbeat
  split
  · exact SameFields.refl w
  · unfold runPlayBeatPair
    split
    · exact SameFields.refl w
    · exact (sameFields_pushTimer _ _ _ _).trans
        ((playSingleBeat_sameFields _ _).trans (playSingleBeat_sameFields _ _))

/-- C4: For every execution of `startAmbient()` that begins playback, the
Pad layer sets `currentPadChordNotes` to a non-empty chord before any
Arpeggio unit is synthesized — Pad is started first and every later layer
preserves the chord — and `createArpeggio` synthesizes no unit at all
when `currentPadChordNotes` is empty (it returns the state unchanged). -/
theorem startAmbient_pad_first :
    (∀ w : World, ∀ tape : Nat → ℚ,
      w.ctx = true → w.masterGain = true → w.isPlaying = true →
      ∃ wp, createPad tape w = some wp ∧ wp.currentPadChordNotes ≠ [])
    ∧ (∀ w : World, ∀ tape : Nat → ℚ,
        (createBassline tape w).currentPadChordNotes = w.currentPadChordNotes
        ∧ (createTexture w).currentPadChordNotes = w.currentPadChordNotes
        ∧ (createMelody tape w).currentPadChordNotes = w.currentPadChordNotes
        ∧ (createHeartbeat w).currentPadChordNotes = w.currentPadChordNotes)
    ∧ (∀ w : World, w.currentPadChordNotes = [] → createArpeggio w = some w)
    ∧ (∀ w w' : World, ∀ tape : Nat → ℚ, ∀ rOk : Bool,
        Inv w → startAmbient tape rOk w = some w' →
        w.isPlaying = false → w'.isPlaying = true →
        w'.currentPadChordNotes ≠ []) := by
  refine ⟨?_, ?_, ?_, ?_⟩
  · intro w tape hc hmg hp
    obtain ⟨wp, he, hn, _⟩ := createPad_run tape hc hmg hp
    exact ⟨wp, he, hn⟩
  · intro w tape
    exact ⟨(createBassline_sameFields tape w).notes,
      (createTexture_sameFields w).notes,
      (createMelody_sameFields tape w).notes,
      (createHeartbeat_sameFields w).notes⟩
  · intro w hnil
    unfold createArpeggio
    rw [if_pos (by simp [hnil])]
  · intro w w' tape rOk h he hp0 hp1
    unfold startAmbient at he
    dsimp only at he
    split at he
    · cases he
      rw [initAudio_isPlaying, hp0] at hp1
      cases hp1
    · next hguard =>
      split at he
      · cases he
        rw [initAudio_isPlaying, hp0] at hp1
        cases hp1
      · have hctx2 : (initAudio w).1.ctx = true := by
          by_contra hx
          simp only [Bool.not_eq_true] at hx
          simp [hx] at hguard
        have hI := inv_initAudio (w := w) h
        have hmg2 : (initAudio w).1.masterGain = true := by
          rw [hI.mgEq]
          exact hctx2
        have hiW : initAudio { (initAudio w).1 with isPlaying := true }
            = ({ (initAudio w).1 with isPlaying := true }, true) :=
          initAudio_of_ctx
            (show ({ (initAudio w).1 with isPlaying := true } : World).ctx = true
              from hctx2)
        have hvol := setVolume_eq (initAudio w).1.currentVolume
          (w := { (initAudio w).1 with isPlaying := true })
          (by rw [hiW]) (by rw [hiW]; exact hmg2)
        have hW1 : (setVolume (initAudio w).1.currentVolume
            { (initAudio w).1 with isPlaying := true }).ctx = true
            ∧ (setVolume (initAudio w).1.currentVolume
              { (initAudio w).1 with isPlaying := true }).masterGain = true
            ∧ (setVolume (initAudio w).1.currentVolume
              { (initAudio w).1 with isPlaying := true }).isPlaying = true := by
          rw [hvol, hiW]
          exact ⟨hctx2, hmg2, rfl⟩
        unfold startLayers at he
        rcases Option.bind_eq_some.mp he with ⟨w1, hpad, hrest⟩
        obtain ⟨wp, hpe, hn, hpc, hpm, hpp, hph, hpa⟩ :=
          createPad_run (tshift 0 tape) hW1.1 hW1.2.1 hW1.2.2
        rw [hpe] at hpad
        injection hpad with hww
        subst hww
        have hmel : SameFields
            (createMelody (tshift 20 tape)
              (createTexture (createBassline (tshift 10 tape) wp))) wp :=
          (createMelody_sameFields _ _).trans
            ((createTexture_sameFields _).trans (createBassline_sameFields _ _))
        dsimp only at hrest
        split at hrest
        · have hf5 : SameFields
              (createHeartbeat (createMelody (tshift 20 tape)
                (createTexture (createBassline (tshift 10 tape) wp)))) wp :=
            (createHeartbeat_sameFields _).trans hmel
          split at hrest
          · obtain ⟨wA, heA, hfA⟩ := createArpeggio_some
              (by rw [hf5.ctx]; exact hpc)
            rw [heA] at hrest
            cases hrest
            rw [hfA.notes, hf5.notes]
            exact hn
          · cases hrest
            rw [hf5.notes]
            exact hn
        · split at hrest
          · obtain ⟨wA, heA, hfA⟩ := createArpeggio_some
              (by rw [hmel.ctx]; exact hpc)
            rw [heA] at hrest
            cases hrest
            rw [hfA.notes, hmel.notes]
            exact hn
          · cases hrest
            rw [hmel.notes]
            exact hn

theorem startAmbient_pad_first_witness :
    (∃ wp, createPad (fun _ => 0) wPlaying = some wp
      ∧ wp.currentPadChordNotes ≠ [])
    ∧ createArpeggio (initialWorld true ⟨false, none⟩)
        = some (initialWorld true ⟨false, none⟩) :=
  ⟨startAmbient_pad_first.1 wPlaying (fun _ => 0) (by decide) (by decide)
      (by decide),
   startAmbient_pad_first.2.2.1 (initialWorld true ⟨false, none⟩) (by decide)⟩

/-! ## Claim C2: chord change restarts the arpeggiator on the new chord -/

/-- Fade ramps and oscillator stops are not sequence lifecycle events. -/
theorem filter_isSeqEvent_fades (l : List UnitEntry) (t d s : ℚ) :
    (l.flatMap (fun u => [Event.fade u.id t d, Event.stopOsc u.id s])).filter
      isSeqEvent = [] := by
  induction l with
  | nil => rfl
  | cons a l ih => simp [List.flatMap_cons, List.filter_append, ih, isSeqEvent]

theorem pushPadUnits_log (l : List ℚ) (w : World) :
    (pushPadUnits l w).log = w.log := by
  induction l generalizing w with
  | nil => rfl
  | cons a l ih =>
    rw [pushPadUnits, List.foldl_cons]
    exact ih _

theorem append_singleton_ne {a b : List ℚ} (h : a ≠ b) (x y : ℚ) :
    a ++ [x] ≠ b ++ [y] := by
  intro he
  have hl : a.length = b.length := by
    have := congrArg List.length he
    simpa using this
  exact h (List.append_inj_left he hl)

/-- `createArpeggio` on a state passing all its guards: it starts a
sequence, logging `arpCreate` with the chord tones plus the second tone
an octave up, and leaves the stored chord unchanged. -/
theorem createArpeggio_run {w : World} (hc : w.ctx = true)
    (hmg : w.masterGain = true) (hp : w.isPlaying = true)
    (ha : w.arpeggiatorEnabled = true) (hn : w.currentPadChordNotes ≠ []) :
    ∃ w', createArpeggio w = some w'
      ∧ w'.log = w.log ++ [Event.arpCreate (w.currentPadChordNotes ++
          [w.currentPadChordNotes.getD 1 0 * 2])]
      ∧ w'.currentPadChordNotes = w.currentPadChordNotes := by
  unfold createArpeggio
  rw [if_neg (by simp [hc, hmg, hp, ha, hn, List.length_eq_zero])]
  dsimp only
  obtain ⟨w', he, hlog, hf⟩ := playArpNote_run
    (w := { w with log := w.log ++
      [Event.arpCreate (w.currentPadChordNotes ++
        [w.currentPadChordNotes.getD 1 0 * 2])] }) (by simpa using hc)
  exact ⟨w', he, by rw [hlog], hf.notes⟩

/-- The restart pair `stopArpeggioSequence` then `createArpeggio` on a
state passing the guards: the log gains the `stopSeq` entry, the arpeggio
unit fades, and then the `arpCreate` entry built from the current chord. -/
theorem stopThenCreate_log {w : World} (hc : w.ctx = true)
    (hmg : w.masterGain = true) (hp : w.isPlaying = true)
    (ha : w.arpeggiatorEnabled = true) (hn : w.currentPadChordNotes ≠ []) :
    ∃ w', (stopArpeggioSequence w).bind createArpeggio = some w'
      ∧ w'.log = ((w.log ++ [Event.stopSeq]) ++
          ((w.activeOscillators.filter (fun u => u.type = "arpeggio")).flatMap
            (fun u => [Event.fade u.id (1/10000) (1/10), Event.stopOsc u.id (1/5)])))
          ++ [Event.arpCreate (w.currentPadChordNotes ++
              [w.currentPadChordNotes.getD 1 0 * 2])]
      ∧ w'.currentPadChordNotes = w.currentPadChordNotes := by
  rw [stopArpeggioSequence_eq hc]
  obtain ⟨wA, heA, hlogA, hnA⟩ := createArpeggio_run
    (w := fadeOutUnits "arpeggio" (1/10000) (1/10) (1/5)
      { w with
        activeTimers := w.activeTimers.filter (fun t => !t.isArpNote),
        pending := w.pending.filter (fun p => p.id ∉
          (w.activeTimers.filter (fun t => t.isArpNote)).map RegTimer.timerId),
        cancelled := w.cancelled ++
          (w.activeTimers.filter (fun t => t.isArpNote)).map RegTimer.timerId,
        log := w.log ++ [Event.stopSeq] })
    (by simpa using hc) (by simpa using hmg) (by simpa using hp)
    (by simpa using ha) (by simpa using hn)
  rw [Option.some_bind]
  exact ⟨wA, heA, hlogA, hnA⟩

/-- C2: whenever a pad chord transition (`chordProgression`) fires while
the arpeggiator is enabled and the newly emitted chord differs from the
previously emitted one, the transition succeeds, stores the new chord,
and its sequence lifecycle events are exactly one `stopArpeggioSequence`
entry followed by exactly one `createArpeggio` sequence start whose notes
are the new chord's frequencies plus the second tone raised an octave —
and those notes never extend the previous chord's frequencies. -/
theorem chordProgression_restarts_arpeggio :
    ∀ (tape : Nat → ℚ) (i : Nat) (w : World),
      w.isPlaying = true → w.ctx = true → w.masterGain = true →
      w.arpeggiatorEnabled = true →
      i < chords.length →
      w.currentPadChordNotes ≠ chords.getD i [] →
      ∃ w', runChordProgression tape i w = some w'
        ∧ w'.currentPadChordNotes = chords.getD i []
        ∧ (w'.log.drop w.log.length).filter isSeqEvent
            = [Event.stopSeq,
               Event.arpCreate (chords.getD i []
                 ++ [(chords.getD i []).getD 1 0 * 2])]
        ∧ ∀ x : ℚ, chords.getD i [] ++ [(chords.getD i []).getD 1 0 * 2]
            ≠ w.currentPadChordNotes ++ [x] := by
  intro tape i w hp hc hmg ha hi hne
  unfold runChordProgression
  rw [if_neg (by simp [hp, hc])]
  dsimp only
  have hmid : ∀ d : ℚ, SameFields
      (pushTimer (.chordProgression ((i + 1) % chords.length)) d none
        (pushPadUnits (chords.getD i [])
          (fadeOutUnits "pad" (1/10000) 4 (41/10)
            { w with currentPadChordNotes := chords.getD i [] })))
      { w with currentPadChordNotes := chords.getD i [] } :=
    fun d => (sameFields_pushTimer _ _ _ _).trans
      ((sameFields_pushPadUnits _ _).trans (sameFields_fadeOutUnits _ _ _ _ _))
  have hXlog : ∀ d : ℚ,
      (pushTimer (.chordProgression ((i + 1) % chords.length)) d none
        (pushPadUnits (chords.getD i [])
          (fadeOutUnits "pad" (1/10000) 4 (41/10)
            { w with currentPadChordNotes := chords.getD i [] }))).log
      = w.log ++ ((w.activeOscillators.filter (fun u => u.type = "pad")).flatMap
          (fun u => [Event.fade u.id (1/10000) 4, Event.stopOsc u.id (41/10)])) :=
    fun d => pushPadUnits_log _ _
  have hXnn : ∀ d : ℚ,
      (pushTimer (.chordProgression ((i + 1) % chords.length)) d none
        (pushPadUnits (chords.getD i [])
          (fadeOutUnits "pad" (1/10000) 4 (41/10)
            { w with currentPadChordNotes := chords.getD i [] }))).currentPadChordNotes
      ≠ [] := by
    intro d
    rw [(hmid d).notes]
    exact chords_getD_ne_nil i hi
  rw [if_pos ⟨(hmid _).arp.trans ha, hne⟩]
  obtain ⟨wA, heA, hlogA, hnA⟩ := stopThenCreate_log
    ((hmid _).ctx.trans hc) ((hmid _).mg.trans hmg) ((hmid _).play.trans hp)
    ((hmid _).arp.trans ha) (hXnn _)
  refine ⟨wA, heA, ?_, ?_, ?_⟩
  · rw [hnA, (hmid _).notes]
  · rw [hlogA, hXlog _, (hmid _).notes]
    simp only [List.append_assoc, List.drop_left, List.filter_append,
      filter_isSeqEvent_fades, List.filter_cons, List.filter_nil]
    simp [isSeqEvent]
  · intro x
    exact append_singleton_ne (Ne.symm hne) _ x

theorem chordProgression_restarts_arpeggio_witness :
    ∃ w', runChordProgression (fun _ => 0) 0
        { wPlaying with currentPadChordNotes := [] } = some w'
      ∧ w'.currentPadChordNotes = chords.getD 0 []
      ∧ (w'.log.drop
            ({ wPlaying with currentPadChordNotes := [] } : World).log.length).filter
          isSeqEvent
          = [Event.stopSeq, Event.arpCreate (chords.getD 0 []
              ++ [(chords.getD 0 []).getD 1 0 * 2])]
      ∧ ∀ x : ℚ, chords.getD 0 [] ++ [(chords.getD 0 []).getD 1 0 * 2]
          ≠ ({ wPlaying with currentPadChordNotes := [] } : World).currentPadChordNotes
            ++ [x] :=
  chordProgression_restarts_arpeggio (fun _ => 0) 0
    { wPlaying with currentPadChordNotes := [] }
    (by decide) (by decide) (by decide) (by decide) (by decide)
    (by simp [chords])

/-! ## Claim C9: non-null nodes while playing -/

theorem nodesInv_of_inv {w : World} (h : Inv w) : NodesInv w :=
  fun hp => ⟨h.playCtx hp, h.mgEq.trans (h.playCtx hp),
    h.anEq.trans (h.playCtx hp)⟩

theorem toggleHeartbeat_isSome {w : World} (h : NodesInv w) :
    (toggleHeartbeat w).isSome = true := by
  rcases Bool.eq_false_or_eq_true w.isPlaying with hp | hp
  · obtain ⟨hc, -, -⟩ := h hp
    rcases Bool.eq_false_or_eq_true w.heartbeatEnabled with hb | hb
    · simp [toggleHeartbeat, hp, hb, hc]
    · simp [toggleHeartbeat, hp, hb]
  · simp [toggleHeartbeat, hp]

theorem stopArpeggioSequence_isSome {w : World} (hc : w.ctx = true) :
    (stopArpeggioSequence w).isSome = true := by
  rw [stopArpeggioSequence_eq hc]
  rfl

theorem createArpeggio_isSome {w : World} (hc : w.ctx = true) :
    (createArpeggio w).isSome = true := by
  obtain ⟨w', he, -⟩ := createArpeggio_some hc
  rw [he]
  rfl

theorem toggleArpeggiator_isSome {w : World} (h : NodesInv w) :
    (toggleArpeggiator w).isSome = true := by
  rcases Bool.eq_false_or_eq_true w.isPlaying with hp | hp
  · obtain ⟨hc, -, -⟩ := h hp
    rcases Bool.eq_false_or_eq_true w.arpeggiatorEnabled with ha | ha
    · simp [toggleArpeggiator, hp, ha]
      exact stopArpeggioSequence_isSome hc
    · simp [toggleArpeggiator, hp, ha]
      exact createArpeggio_isSome hc
  · simp [toggleArpeggiator, hp]

/-- C9: whenever `isPlaying` is true, the audio context, master gain and
analyser are all non-null; this invariant holds in every reachable state
and is preserved by every exported operation (every `Step`), and under it
the unguarded `audioContext.currentTime` dereferences in
`toggleHeartbeat` and in `stopArpeggioSequence` as reached from
`toggleArpeggiator` never fault. -/
theorem nodes_nonnull_invariant :
    (∀ w : World, Reachable w → NodesInv w)
    ∧ (∀ w w' : World, Reachable w → Step w w' → NodesInv w')
    ∧ (∀ w : World, NodesInv w → (toggleHeartbeat w).isSome = true)
    ∧ (∀ w : World, NodesInv w → (toggleArpeggiator w).isSome = true)
    ∧ (∀ w : World, NodesInv w → w.isPlaying = true →
        (stopArpeggioSequence w).isSome = true) :=
  ⟨fun _ h => nodesInv_of_inv (reachable_inv h),
   fun w w' hr hs => nodesInv_of_inv (reachable_inv (Reachable.step w w' hr hs)),
   fun _ h => toggleHeartbeat_isSome h,
   fun _ h => toggleArpeggiator_isSome h,
   fun w h hp => by rw [stopArpeggioSequence_eq (h hp).1]; rfl⟩

theorem nodes_nonnull_invariant_witness :
    NodesInv (initialWorld true ⟨false, none⟩)
    ∧ (toggleHeartbeat wPlaying).isSome = true
    ∧ (toggleArpeggiator wPlaying).isSome = true
    ∧ (stopArpeggioSequence wPlaying).isSome = true :=
  ⟨nodes_nonnull_invariant.1 _ (Reachable.base true ⟨false, none⟩ (by decide)),
   nodes_nonnull_invariant.2.2.1 wPlaying (by decide),
   nodes_nonnull_invariant.2.2.2.1 wPlaying (by decide),
   nodes_nonnull_invariant.2.2.2.2 wPlaying (by decide) (by decide)⟩

/-! ## Claim C6: settings round-trip -/

theorem clamp_id {lo hi v : ℚ} (h1 : lo ≤ v) (h2 : v ≤ hi) :
    max lo (min hi v) = v := by
  rw [min_eq_right h2, max_eq_right h1]

/-- `toggleMute` on a muted, initialized state: unmute. -/
theorem toggleMute_unmute {X : World} (hctx : X.ctx = true)
    (hmg : X.masterGain = true) (hmut : X.isMuted = true) :
    toggleMute X = { X with
      isMuted := false,
      masterGainValue := X.currentVolume,
      store := { X.store with muted := false } } := by
  simp [toggleMute, initAudio_of_ctx hctx, hmg, hmut]

/-- The mute stage of `applySettings` skips the toggle when the snapshot
flag matches the current state. -/
theorem applyMute_skip {w0 X : World} (hmut : X.isMuted = w0.isMuted) :
    applyMute (getSettings w0).toJ X = X := by
  show (if w0.isMuted ≠ X.isMuted then toggleMute X else X) = X
  rw [if_neg (by simp [hmut])]

/-- The mute stage of `applySettings` unmutes when the snapshot flag is
false but the state got muted in between. -/
theorem applyMute_toggle {w0 X : World} (hmut0 : w0.isMuted = false)
    (hmut : X.isMuted = true) (hctx : X.ctx = true) (hmg : X.masterGain = true) :
    applyMute (getSettings w0).toJ X = { X with
      isMuted := false,
      masterGainValue := X.currentVolume,
      store := { X.store with muted := false } } := by
  show (if w0.isMuted ≠ X.isMuted then toggleMute X else X) = _
  rw [if_pos (by simp [hmut, hmut0]), toggleMute_unmute hctx hmg hmut]

theorem applyHeartbeat_skip {w0 X : World}
    (hhb : X.heartbeatEnabled = w0.heartbeatEnabled) :
    applyHeartbeat (getSettings w0).toJ X = some X := by
  show (if w0.heartbeatEnabled ≠ X.heartbeatEnabled
    then toggleHeartbeat X else some X) = some X
  rw [if_neg (by simp [hhb])]

theorem applyArpeggiator_skip {w0 X : World}
    (harp : X.arpeggiatorEnabled = w0.arpeggiatorEnabled) :
    applyArpeggiator (getSettings w0).toJ X = some X := by
  show (if w0.arpeggiatorEnabled ≠ X.arpeggiatorEnabled
    then toggleArpeggiator X else some X) = some X
  rw [if_neg (by simp [harp])]

/-- The tail of the round-trip (oscillator type, filter, speed, and the
two toggles): starting from any state agreeing with the snapshot source
on the seven parameters, it succeeds and preserves the agreement. -/
theorem applyTail_eq {w0 X : World} (hs : ParamEq X w0)
    (hfLo : 100 ≤ w0.padFilterFreq) (hfHi : w0.padFilterFreq ≤ 10000)
    (hcLo : 4000 ≤ w0.chordSpeedMs) (hcHi : w0.chordSpeedMs ≤ 30000) :
    ∃ w', (applyHeartbeat (getSettings w0).toJ
        (applyChordSpeed (getSettings w0).toJ
          (applyFilterFreq (getSettings w0).toJ
            (applyOscType (getSettings w0).toJ X)))).bind
        (applyArpeggiator (getSettings w0).toJ) = some w'
      ∧ ParamEq w' w0 := by
  have h3 : ParamEq (applyOscType (getSettings w0).toJ X) w0 := by
    show ParamEq (setPadOscillatorType w0.padOscType X) w0
    unfold setPadOscillatorType
    split
    · exact ⟨hs.vol, hs.muted, rfl, hs.filt, hs.speed, hs.hb, hs.arp⟩
    · exact ⟨hs.vol, hs.muted, hs.osc, hs.filt, hs.speed, hs.hb, hs.arp⟩
  have h4 : ParamEq (applyFilterFreq (getSettings w0).toJ
      (applyOscType (getSettings w0).toJ X)) w0 :=
    ⟨h3.vol, h3.muted, h3.osc, clamp_id hfLo hfHi, h3.speed, h3.hb, h3.arp⟩
  have h5 : ParamEq (applyChordSpeed (getSettings w0).toJ
      (applyFilterFreq (getSettings w0).toJ
        (applyOscType (getSettings w0).toJ X))) w0 :=
    ⟨h4.vol, h4.muted, h4.osc, h4.filt, clamp_id hcLo hcHi, h4.hb, h4.arp⟩
  refine ⟨_, ?_, h5⟩
  rw [applyHeartbeat_skip h5.hb, Option.some_bind, applyArpeggiator_skip h5.arp]

/-- C6: for every reachable engine state, `applySettings (getSettings())`
succeeds and leaves every parameter field and both toggle flags
unchanged: volume, mute flag, pad oscillator type, pad filter frequency,
chord speed, `heartbeatEnabled` and `arpeggiatorEnabled` each equal their
values before the call. -/
theorem applySettings_getSettings_roundtrip :
    ∀ w : World, Reachable w →
      ∃ w', applySettings (some (getSettings w).toJ) w = some w'
        ∧ w'.currentVolume = w.currentVolume
        ∧ w'.isMuted = w.isMuted
        ∧ w'.padOscType = w.padOscType
        ∧ w'.padFilterFreq = w.padFilterFreq
        ∧ w'.chordSpeedMs = w.chordSpeedMs
        ∧ w'.heartbeatEnabled = w.heartbeatEnabled
        ∧ w'.arpeggiatorEnabled = w.arpeggiatorEnabled := by
  intro w hr
  have h := reachable_inv hr
  have hmain : ∃ w', (applyHeartbeat (getSettings w).toJ
      (applyChordSpeed (getSettings w).toJ
        (applyFilterFreq (getSettings w).toJ
          (applyOscType (getSettings w).toJ
            (applyMute (getSettings w).toJ
              (applyVolume (getSettings w).toJ w)))))).bind
      (applyArpeggiator (getSettings w).toJ) = some w' ∧ ParamEq w' w := by
    rcases initAudio_spec w with ⟨hcW, hei⟩ | ⟨hcW, hsW, hei⟩ | ⟨hcW, hsW, hei⟩
    · have hok : (initAudio w).2 = true := by rw [hei]
      have hmg : (initAudio w).1.masterGain = true := by
        rw [hei]
        exact h.mgEq.trans hcW
      have hS1 : ParamEq (applyVolume (getSettings w).toJ w) w := by
        show ParamEq (setVolume w.currentVolume w) w
        rw [setVolume_eq w.currentVolume hok hmg]
        refine ⟨clamp_id h.volLo h.volHi, ?_, ?_, ?_, ?_, ?_, ?_⟩ <;> rw [hei]
      rw [applyMute_skip hS1.muted]
      exact applyTail_eq hS1 h.filtLo h.filtHi h.speedLo h.speedHi
    · have hng : ¬((initAudio w).2 = true ∧ (initAudio w).1.masterGain = true) := by
        intro hx
        rw [hei] at hx
        simp at hx
      have hS1 : ParamEq (applyVolume (getSettings w).toJ w) w := by
        show ParamEq (setVolume w.currentVolume w) w
        rw [setVolume_noop w.currentVolume hng, hei]
        exact ⟨rfl, rfl, rfl, rfl, rfl, rfl, rfl⟩
      rw [applyMute_skip hS1.muted]
      exact applyTail_eq hS1 h.filtLo h.filtHi h.speedLo h.speedHi
    · have hok : (initAudio w).2 = true := by rw [hei]
      have hmg : (initAudio w).1.masterGain = true := by rw [hei]
      have hm0 : w.isMuted = false := h.noCtxMuted hcW
      have hS1vol : (applyVolume (getSettings w).toJ w).currentVolume
          = w.currentVolume := by
        show (setVolume w.currentVolume w).currentVolume = w.currentVolume
        rw [setVolume_eq w.currentVolume hok hmg]
        exact clamp_id h.volLo h.volHi
      have hS1osc : (applyVolume (getSettings w).toJ w).padOscType
          = w.padOscType := by
        show (setVolume w.currentVolume w).padOscType = w.padOscType
        rw [setVolume_eq w.currentVolume hok hmg, hei]
      have hS1filt : (applyVolume (getSettings w).toJ w).padFilterFreq
          = w.padFilterFreq := by
        show (setVolume w.currentVolume w).padFilterFreq = w.padFilterFreq
        rw [setVolume_eq w.currentVolume hok hmg, hei]
      have hS1speed : (applyVolume (getSettings w).toJ w).chordSpeedMs
          = w.chordSpeedMs := by
        show (setVolume w.currentVolume w).chordSpeedMs = w.chordSpeedMs
        rw [setVolume_eq w.currentVolume hok hmg, hei]
      have hS1hb : (applyVolume (getSettings w).toJ w).heartbeatEnabled
          = w.heartbeatEnabled := by
        show (setVolume w.currentVolume w).heartbeatEnabled = w.heartbeatEnabled
        rw [setVolume_eq w.currentVolume hok hmg, hei]
      have hS1arp : (applyVolume (getSettings w).toJ w).arpeggiatorEnabled
          = w.arpeggiatorEnabled := by
        show (setVolume w.currentVolume w).arpeggiatorEnabled
          = w.arpeggiatorEnabled
        rw [setVolume_eq w.currentVolume hok hmg, hei]
      have hS1mut : (applyVolume (getSettings w).toJ w).isMuted
          = w.store.muted := by
        show (setVolume w.currentVolume w).isMuted = w.store.muted
        rw [setVolume_eq w.currentVolume hok hmg, hei]
      have hS1ctx : (applyVolume (getSettings w).toJ w).ctx = true := by
        show (setVolume w.currentVolume w).ctx = true
        rw [setVolume_eq w.currentVolume hok hmg, hei]
      have hS1mg : (applyVolume (getSettings w).toJ w).masterGain = true := by
        show (setVolume w.currentVolume w).masterGain = true
        rw [setVolume_eq w.currentVolume hok hmg, hei]
      rcases Bool.eq_false_or_eq_true w.store.muted with hm | hm
      · rw [applyMute_toggle hm0 (hS1mut.trans hm) hS1ctx hS1mg]
        have hS2 : ParamEq { applyVolume (getSettings w).toJ w with
            isMuted := false,
            masterGainValue := (applyVolume (getSettings w).toJ w).currentVolume,
            store := { (applyVolume (getSettings w).toJ w).store with
              muted := false } } w :=
          ⟨hS1vol, hm0.symm, hS1osc, hS1filt, hS1speed, hS1hb, hS1arp⟩
        exact applyTail_eq hS2 h.filtLo h.filtHi h.speedLo h.speedHi
      · have hS1 : ParamEq (applyVolume (getSettings w).toJ w) w :=
          ⟨hS1vol, by rw [hS1mut, hm, hm0], hS1osc, hS1filt, hS1speed,
           hS1hb, hS1arp⟩
        rw [applyMute_skip hS1.muted]
        exact applyTail_eq hS1 h.filtLo h.filtHi h.speedLo h.speedHi
  obtain ⟨w', he, hp⟩ := hmain
  exact ⟨w', he, hp.vol, hp.muted, hp.osc, hp.filt, hp.speed, hp.hb, hp.arp⟩

/-! ## Claim C8: layers scheduled by a default start -/

theorem pushPadUnits_pending (l : List ℚ) (w : World) :
    (pushPadUnits l w).pending = w.pending := by
  induction l generalizing w with
  | nil => rfl
  | cons a l ih =>
    rw [pushPadUnits, List.foldl_cons]
    exact ih _

theorem pushPadUnits_osc (l : List ℚ) (w : World)
    (h : ∀ u ∈ w.activeOscillators, u.type = "pad") :
    ∀ u ∈ (pushPadUnits l w).activeOscillators, u.type = "pad" := by
  induction l generalizing w with
  | nil => exact h
  | cons a l ih =>
    rw [pushPadUnits, List.foldl_cons]
    refine ih _ ?_
    intro u hu
    rcases List.mem_append.mp hu with hu | hu
    · rcases List.mem_append.mp hu with hu | hu
      · exact h u hu
      · rw [List.mem_singleton.mp hu]
    · rw [List.mem_singleton.mp hu]

theorem any_texture_eq_false {l : List UnitEntry}
    (h : ∀ u ∈ l, u.type = "pad") :
    l.any (fun u => u.type = "texture") = false := by
  rw [List.any_eq_false]
  intro u hu
  simp [h u hu]

/-- `chordProgression` with the arpeggiator disabled: it schedules exactly
one follow-up `chordProgression` timer, keeps every unit of kind pad, and
preserves the scalar fields. -/
theorem runChordProgression_noArp {w : World} (tape : Nat → ℚ) (i : Nat)
    (hp : w.isPlaying = true) (hc : w.ctx = true)
    (hna : w.arpeggiatorEnabled = false)
    (hosc : ∀ u ∈ w.activeOscillators, u.type = "pad") :
    ∃ w' j d, runChordProgression tape i w = some w'
      ∧ w'.pending = w.pending
          ++ [⟨j, .chordProgression ((i + 1) % chords.length), d⟩]
      ∧ (∀ u ∈ w'.activeOscillators, u.type = "pad")
      ∧ w'.ctx = true ∧ w'.masterGain = w.masterGain ∧ w'.isPlaying = true
      ∧ w'.heartbeatEnabled = w.heartbeatEnabled
      ∧ w'.arpeggiatorEnabled = false := by
  unfold runChordProgression
  rw [if_neg (by simp [hp, hc])]
  dsimp only
  have hmid : ∀ d : ℚ, SameFields
      (pushTimer (.chordProgression ((i + 1) % chords.length)) d none
        (pushPadUnits (chords.getD i [])
          (fadeOutUnits "pad" (1/10000) 4 (41/10)
            { w with currentPadChordNotes := chords.getD i [] })))
      { w with currentPadChordNotes := chords.getD i [] } :=
    fun d => (sameFields_pushTimer _ _ _ _).trans
      ((sameFields_pushPadUnits _ _).trans (sameFields_fadeOutUnits _ _ _ _ _))
  have hXna : ∀ d : ℚ,
      ¬((pushTimer (.chordProgression ((i + 1) % chords.length)) d none
        (pushPadUnits (chords.getD i [])
          (fadeOutUnits "pad" (1/10000) 4 (41/10)
            { w with currentPadChordNotes := chords.getD i [] }))).arpeggiatorEnabled
          = true
        ∧ w.currentPadChordNotes ≠ chords.getD i []) := by
    intro d hx
    have hx1 := ((hmid d).arp).symm.trans hx.1
    exact absurd (show w.arpeggiatorEnabled = true from hx1) (by simp [hna])
  have hpend : ∀ d : ℚ,
      (pushTimer (.chordProgression ((i + 1) % chords.length)) d none
        (pushPadUnits (chords.getD i [])
          (fadeOutUnits "pad" (1/10000) 4 (41/10)
            { w with currentPadChordNotes := chords.getD i [] }))).pending
      = w.pending ++ [⟨(pushPadUnits (chords.getD i [])
          (fadeOutUnits "pad" (1/10000) 4 (41/10)
            { w with currentPadChordNotes := chords.getD i [] })).nextId,
          .chordProgression ((i + 1) % chords.length), d⟩] := by
    intro d
    show (pushPadUnits (chords.getD i [])
        (fadeOutUnits "pad" (1/10000) 4 (41/10)
          { w with currentPadChordNotes := chords.getD i [] })).pending ++ _ = _
    rw [pushPadUnits_pending]
    rfl
  have hoscX : ∀ d : ℚ,
      ∀ u ∈ (pushTimer (.chordProgression ((i + 1) % chords.length)) d none
        (pushPadUnits (chords.getD i [])
          (fadeOutUnits "pad" (1/10000) 4 (41/10)
            { w with currentPadChordNotes := chords.getD i [] }))).activeOscillators,
        u.type = "pad" := by
    intro d
    show ∀ u ∈ (pushPadUnits (chords.getD i [])
        (fadeOutUnits "pad" (1/10000) 4 (41/10)
          { w with currentPadChordNotes := chords.getD i [] })).activeOscillators,
      u.type = "pad"
    refine pushPadUnits_osc _ _ ?_
    intro u hu
    exact hosc u (List.mem_filter.mp hu).1
  rw [if_neg (hXna _)]
  exact ⟨_, _, _, rfl, hpend _, hoscX _, ((hmid _).ctx).trans hc, (hmid _).mg,
    ((hmid _).play).trans hp, (hmid _).hb, ((hmid _).arp).trans hna⟩

/-- `createPad` with the arpeggiator disabled. -/
theorem createPad_noArp {w : World} (tape : Nat → ℚ)
    (hc : w.ctx = true) (hmg : w.masterGain = true) (hp : w.isPlaying = true)
    (hna : w.arpeggiatorEnabled = false)
    (hosc : ∀ u ∈ w.activeOscillators, u.type = "pad") :
    ∃ w' j d i', createPad tape w = some w'
      ∧ w'.pending = w.pending ++ [⟨j, .chordProgression i', d⟩]
      ∧ (∀ u ∈ w'.activeOscillators, u.type = "pad")
      ∧ w'.ctx = true ∧ w'.masterGain = w.masterGain ∧ w'.isPlaying = true
      ∧ w'.heartbeatEnabled = w.heartbeatEnabled
      ∧ w'.arpeggiatorEnabled = false := by
  unfold createPad
  rw [if_neg (by simp [hc, hmg, hp])]
  dsimp only
  obtain ⟨w', j, d, he, hpend, hoscw, hctx, hmg1, hp1, hb1, ha1⟩ :=
    runChordProgression_noArp (tshift 1 tape) (randIndex (tape 0) chords.length)
      (w := { w with currentPadChordNotes := chords.getD (randIndex (tape 0) chords.length) [] })
      hp hc hna hosc
  exact ⟨w', j, d, _, he, hpend, hoscw, hctx, hmg1, hp1, hb1, ha1⟩

theorem createBassline_eq {w : World} (tape : Nat → ℚ)
    (hc : w.ctx = true) (hmg : w.masterGain = true) (hp : w.isPlaying = true) :
    createBassline tape w
      = pushTimer (.playBassNote (randIndex (tape 0) bassNotes.length))
          4000 none w := by
  unfold createBassline
  rw [if_neg (by simp [hc, hmg, hp])]

theorem createMelody_eq {w : World} (tape : Nat → ℚ)
    (hc : w.ctx = true) (hmg : w.masterGain = true) (hp : w.isPlaying = true) :
    createMelody tape w
      = pushTimer (.playPhrase (randIndex (tape 0) phrases.length))
          8000 none w := by
  unfold createMelody
  rw [if_neg (by simp [hc, hmg, hp])]

theorem createTexture_eq {w : World}
    (hc : w.ctx = true) (hmg : w.masterGain = true) (hp : w.isPlaying = true)
    (hno : w.activeOscillators.any (fun u => u.type = "texture") = false) :
    createTexture w = (pushUnit "texture" w).1 := by
  unfold createTexture
  rw [if_neg (by simp [hc, hmg, hp]), if_neg (by simp [hno])]

/-- `startLayers` after a successful pad start, with both optional layers
disabled: bass timer, texture unit, melody timer. -/
theorem startLayers_run_noToggles {w wP : World} (tape : Nat → ℚ)
    (hpad : createPad (tshift 0 tape) w = some wP)
    (hc : wP.ctx = true) (hmg : wP.masterGain = true) (hp : wP.isPlaying = true)
    (hhb : wP.heartbeatEnabled = false) (hna : wP.arpeggiatorEnabled = false)
    (hno : wP.activeOscillators.any (fun u => u.type = "texture") = false) :
    startLayers tape w
      = some (pushTimer (.playPhrase (randIndex ((tshift 20 tape) 0) phrases.length))
          8000 none
          ((pushUnit "texture"
            (pushTimer (.playBassNote (randIndex ((tshift 10 tape) 0) bassNotes.length))
              4000 none wP)).1)) := by
  unfold startLayers
  rw [hpad]
  simp only [Option.bind_eq_bind, Option.some_bind]
  rw [createBassline_eq _ hc hmg hp]
  rw [createTexture_eq
    (w := pushTimer (.playBassNote (randIndex ((tshift 10 tape) 0) bassNotes.length))
      4000 none wP) hc hmg hp hno]
  rw [createMelody_eq (tshift 20 tape)
    (w := (pushUnit "texture"
      (pushTimer (.playBassNote (randIndex ((tshift 10 tape) 0) bassNotes.length))
        4000 none wP)).1) hc hmg hp]
  have hM1 : ¬((pushTimer
      (.playPhrase (randIndex ((tshift 20 tape) 0) phrases.length)) 8000 none
      ((pushUnit "texture"
        (pushTimer (.playBassNote (randIndex ((tshift 10 tape) 0) bassNotes.length))
          4000 none wP)).1)).heartbeatEnabled = true) := by
    intro hx
    exact absurd (show wP.heartbeatEnabled = true from hx) (by simp [hhb])
  have hM2 : ¬((pushTimer
      (.playPhrase (randIndex ((tshift 20 tape) 0) phrases.length)) 8000 none
      ((pushUnit "texture"
        (pushTimer (.playBassNote (randIndex ((tshift 10 tape) 0) bassNotes.length))
          4000 none wP)).1)).arpeggiatorEnabled = true
      ∧ (pushTimer
      (.playPhrase (randIndex ((tshift 20 tape) 0) phrases.length)) 8000 none
      ((pushUnit "texture"
        (pushTimer (.playBassNote (randIndex ((tshift 10 tape) 0) bassNotes.length))
          4000 none wP)).1)).currentPadChordNotes.length > 0) := by
    intro hx
    exact absurd (show wP.arpeggiatorEnabled = true from hx.1) (by simp [hna])
  rw [if_neg hM1, if_neg hM2]
  rfl

/-- A default `startAmbient` run: it succeeds, its pending timers are
exactly one pad, one bass and one melody timer, the texture unit is
registered, and the engine is playing. -/
theorem startAmbient_default_pending (tape : Nat → ℚ) :
    ∃ w', startAmbient tape true (initialWorld true ⟨false, none⟩) = some w'
      ∧ w'.pending.map (fun p => layerOfCallback p.cb) = ["pad", "bass", "melody"]
      ∧ (∃ u ∈ w'.activeOscillators, u.type = "texture")
      ∧ w'.isPlaying = true := by
  have hsa : startAmbient tape true (initialWorld true ⟨false, none⟩)
      = startLayers tape (setVolume (7/10) wFresh) := rfl
  have hcl : max (0 : ℚ) (min 1 (7/10)) = 7/10 := by norm_num
  have hV : setVolume (7/10) wFresh = wStart := by
    rw [setVolume_eq (7/10) (by rw [initAudio_of_ctx rfl])
        (by rw [initAudio_of_ctx rfl]; rfl),
      initAudio_of_ctx rfl]
    simp [wFresh, wStart, initialWorld, hcl]
  obtain ⟨wP, j1, d1, i1, heP, hpendP, hoscP, hcP, hmgP, hpP, hbP, haP⟩ :=
    createPad_noArp (tshift 0 tape) (w := wStart) rfl rfl rfl rfl
      (fun u hu => absurd hu (List.not_mem_nil u))
  have hrun := startLayers_run_noToggles tape (w := wStart) heP hcP hmgP hpP hbP haP
    (any_texture_eq_false hoscP)
  have hfull := (hsa.trans (congrArg (startLayers tape) hV)).trans hrun
  refine ⟨_, hfull, ?_, ?_, ?_⟩
  · simp only [pushTimer, pushUnit]
    rw [hpendP]
    simp [wStart, wFresh, initialWorld, layerOfCallback]
  · simp only [pushTimer, pushUnit]
    exact ⟨_, List.mem_append_right _ (List.mem_singleton_self _), rfl⟩
  · exact hpP

theorem countP_layer_eq {w' : World} {lay : String} {ls : List String}
    (hmap : w'.pending.map (fun p => layerOfCallback p.cb) = ls) :
    w'.pending.countP (fun p => layerOfCallback p.cb == lay)
      = ls.countP (fun s => s == lay) := by
  rw [← hmap, List.countP_map]
  rfl

/-- C8 (amended): starting from the default parameters, after
`startAmbient()` completes (for every random tape), the Pad, Bassline and
Melody layers have each scheduled at least one pending timer, the Texture
layer has scheduled none — it registers its looping unit in
`activeOscillators` instead — and the Heartbeat and Arpeggio layers have
scheduled none. -/
theorem startAmbient_default_layers :
    ∀ tape : Nat → ℚ,
      ∃ w', startAmbient tape true (initialWorld true ⟨false, none⟩) = some w'
        ∧ 1 ≤ w'.pending.countP (fun p => layerOfCallback p.cb == "pad")
        ∧ 1 ≤ w'.pending.countP (fun p => layerOfCallback p.cb == "bass")
        ∧ 1 ≤ w'.pending.countP (fun p => layerOfCallback p.cb == "melody")
        ∧ w'.pending.countP (fun p => layerOfCallback p.cb == "texture") = 0
        ∧ (∃ u ∈ w'.activeOscillators, u.type = "texture")
        ∧ w'.pending.countP (fun p => layerOfCallback p.cb == "heartbeat") = 0
        ∧ w'.pending.countP (fun p => layerOfCallback p.cb == "arpeggio") = 0 := by
  intro tape
  obtain ⟨w', he, hmap, htex, -⟩ := startAmbient_default_pending tape
  refine ⟨w', he, ?_, ?_, ?_, ?_, htex, ?_, ?_⟩ <;> rw [countP_layer_eq hmap] <;>
    decide

/-! ## Claim C10: typed settings fields -/

theorem coreEq_refl (w : World) : CoreEq w w :=
  ⟨rfl, rfl, rfl, rfl, rfl, rfl, rfl, rfl, rfl, rfl⟩

theorem coreEq_trans {w₁ w₂ w₃ : World}
    (h₁ : CoreEq w₁ w₂) (h₂ : CoreEq w₂ w₃) : CoreEq w₁ w₃ :=
  ⟨h₁.ctx.trans h₂.ctx, h₁.mg.trans h₂.mg, h₁.mgv.trans h₂.mgv,
   h₁.muted.trans h₂.muted, h₁.vol.trans h₂.vol, h₁.osc.trans h₂.osc,
   h₁.filt.trans h₂.filt, h₁.speed.trans h₂.speed, h₁.hb.trans h₂.hb,
   h₁.arp.trans h₂.arp⟩

theorem coreEq_pushTimer (cb : Callback) (d : ℚ) (tag : Option String)
    (w : World) : CoreEq (pushTimer cb d tag w) w :=
  ⟨rfl, rfl, rfl, rfl, rfl, rfl, rfl, rfl, rfl, rfl⟩

theorem coreEq_pushUnit (ty : String) (w : World) :
    CoreEq (pushUnit ty w).1 w :=
  ⟨rfl, rfl, rfl, rfl, rfl, rfl, rfl, rfl, rfl, rfl⟩

theorem coreEq_fadeOutUnits (ty : String) (a b c : ℚ) (w : World) :
    CoreEq (fadeOutUnits ty a b c w) w :=
  ⟨rfl, rfl, rfl, rfl, rfl, rfl, rfl, rfl, rfl, rfl⟩

theorem coreEq_playSingleBeat (off : ℚ) (w : World) :
    CoreEq (playSingleBeat off w) w := by
  unfold playSingleBeat
  split
  · exact coreEq_refl w
  · exact coreEq_trans (coreEq_pushTimer _ _ _ _) (coreEq_pushUnit _ _)

theorem coreEq_runPlayBeatPair (w : World) : CoreEq (runPlayBeatPair w) w := by
  unfold runPlayBeatPair
  split
  · exact coreEq_refl w
  · exact coreEq_trans (coreEq_pushTimer _ _ _ _)
      (coreEq_trans (coreEq_playSingleBeat _ _) (coreEq_playSingleBeat _ _))

theorem coreEq_createHeartbeat (w : World) : CoreEq (createHeartbeat w) w := by
  unfold createHeartbeat
  split
  · exact coreEq_refl w
  · exact coreEq_runPlayBeatPair w

theorem coreEq_playArpNote {ns : List ℚ} {i : Nat} {w w' : World}
    (he : playArpNote ns i w = some w') : CoreEq w' w := by
  unfold playArpNote at he
  split at he
  · cases he
  · dsimp only at he
    split at he
    · cases he
      exact coreEq_trans (coreEq_pushTimer _ _ _ _)
        (coreEq_trans (coreEq_pushTimer _ _ _ _) (coreEq_pushUnit _ _))
    · cases he
      exact coreEq_trans (coreEq_pushTimer _ _ _ _) (coreEq_pushUnit _ _)

theorem coreEq_createArpeggio {w w' : World}
    (he : createArpeggio w = some w') : CoreEq w' w := by
  unfold createArpeggio at he
  split at he
  · cases he
    exact coreEq_refl _
  · exact coreEq_trans (coreEq_playArpNote he)
      ⟨rfl, rfl, rfl, rfl, rfl, rfl, rfl, rfl, rfl, rfl⟩

theorem coreEq_stopArpeggioSequence {w w' : World}
    (he : stopArpeggioSequence w = some w') : CoreEq w' w := by
  unfold stopArpeggioSequence at he
  dsimp only at he
  split at he
  · cases he
  · cases he
    exact coreEq_trans (coreEq_fadeOutUnits _ _ _ _ _)
      ⟨rfl, rfl, rfl, rfl, rfl, rfl, rfl, rfl, rfl, rfl⟩

/-- `toggleHeartbeat` on an initialized state: it succeeds and only flips
the flag (plus registry work). -/
theorem toggleHeartbeat_run {w : World} (hc : w.ctx = true) :
    ∃ w', toggleHeartbeat w = some w'
      ∧ CoreEq w' { w with heartbeatEnabled := !w.heartbeatEnabled } := by
  unfold toggleHeartbeat
  dsimp only
  split
  · split
    · exact ⟨_, rfl, coreEq_createHeartbeat _⟩
    · split
      · next hcf => exact absurd (show w.ctx = false from hcf) (by simp [hc])
      · exact ⟨_, rfl, coreEq_fadeOutUnits _ _ _ _ _⟩
  · exact ⟨_, rfl, coreEq_refl _⟩

/-- `toggleArpeggiator` on an initialized state: it succeeds and only
flips the flag (plus registry work). -/
theorem toggleArpeggiator_run {w : World} (hc : w.ctx = true) :
    ∃ w', toggleArpeggiator w = some w'
      ∧ CoreEq w' { w with arpeggiatorEnabled := !w.arpeggiatorEnabled } := by
  unfold toggleArpeggiator
  dsimp only
  split
  · split
    · obtain ⟨w', he, -⟩ := createArpeggio_some
        (w := { w with arpeggiatorEnabled := !w.arpeggiatorEnabled })
        (by simpa using hc)
      exact ⟨w', he, coreEq_createArpeggio he⟩
    · have he := stopArpeggioSequence_eq
        (w := { w with arpeggiatorEnabled := !w.arpeggiatorEnabled })
        (by simpa using hc)
      exact ⟨_, he, coreEq_stopArpeggioSequence he⟩
  · exact ⟨_, rfl, coreEq_refl _⟩

/-- `toggleMute` on an unmuted, initialized state: mute. -/
theorem toggleMute_mute {X : World} (hctx : X.ctx = true)
    (hmg : X.masterGain = true) (hmut : X.isMuted = false) :
    toggleMute X = { X with
      isMuted := true,
      currentVolume := if X.masterGainValue > 1/1000 then X.masterGainValue
        else X.currentVolume,
      masterGainValue := 0,
      store := { X.store with muted := true } } := by
  unfold toggleMute
  dsimp only
  rw [initAudio_of_ctx hctx]
  dsimp only
  rw [if_neg (by simp [hmg])]
  rw [hmut]
  rw [if_pos (by simp)]
  by_cases hg : X.masterGainValue > 1/1000
  · rw [if_pos hg, if_pos hg]
    rfl
  · rw [if_neg hg, if_neg hg]
    rfl

/-- The volume stage of `applySettings`. -/
theorem applyVolume_spec (s : JSettings) {w : World} (hl : Live w) :
    Live (applyVolume s w)
    ∧ ParamEq (applyVolume s w)
        { w with currentVolume := expVolume s w.currentVolume } := by
  obtain ⟨hc, hmg, hga⟩ := hl
  cases hsv : s.volume with
  | num q =>
    have hav : applyVolume s w = setVolume q w := by
      unfold applyVolume
      rw [hsv]
    have hev : expVolume s w.currentVolume = max 0 (min 1 q) := by
      unfold expVolume
      rw [hsv]
    rw [hav, hev, setVolume_eq q (by rw [initAudio_of_ctx hc])
      (by rw [initAudio_of_ctx hc]; exact hmg), initAudio_of_ctx hc]
    refine ⟨⟨hc, hmg, ?_⟩, rfl, rfl, rfl, rfl, rfl, rfl, rfl⟩
    by_cases hm : w.isMuted = true
    · rw [if_pos hm, if_pos hm, hga, if_pos hm]
    · rw [if_neg hm, if_neg hm]
  | bool b =>
    have hav : applyVolume s w = w := by
      unfold applyVolume
      rw [hsv]
    have hev : expVolume s w.currentVolume = w.currentVolume := by
      unfold expVolume
      rw [hsv]
    rw [hav, hev]
    exact ⟨⟨hc, hmg, hga⟩, rfl, rfl, rfl, rfl, rfl, rfl, rfl⟩
  | str t =>
    have hav : applyVolume s w = w := by
      unfold applyVolume
      rw [hsv]
    have hev : expVolume s w.currentVolume = w.currentVolume := by
      unfold expVolume
      rw [hsv]
    rw [hav, hev]
    exact ⟨⟨hc, hmg, hga⟩, rfl, rfl, rfl, rfl, rfl, rfl, rfl⟩
  | undef =>
    have hav : applyVolume s w = w := by
      unfold applyVolume
      rw [hsv]
    have hev : expVolume s w.currentVolume = w.currentVolume := by
      unfold expVolume
      rw [hsv]
    rw [hav, hev]
    exact ⟨⟨hc, hmg, hga⟩, rfl, rfl, rfl, rfl, rfl, rfl, rfl⟩

/-- The mute stage of `applySettings`. -/
theorem applyMute_spec (s : JSettings) {w : World} (hl : Live w) :
    Live (applyMute s w)
    ∧ ParamEq (applyMute s w) { w with isMuted := expMuted s w.isMuted } := by
  obtain ⟨hc, hmg, hga⟩ := hl
  cases hsm : s.isMuted with
  | bool b =>
    have ham : applyMute s w
        = if b ≠ w.isMuted then toggleMute w else w := by
      unfold applyMute
      rw [hsm]
    have hev : expMuted s w.isMuted = b := by
      unfold expMuted
      rw [hsm]
    rw [ham, hev]
    by_cases hne : b = w.isMuted
    · rw [if_neg (by simp [hne]), hne]
      exact ⟨⟨hc, hmg, hga⟩, rfl, rfl, rfl, rfl, rfl, rfl, rfl⟩
    · rw [if_pos hne]
      by_cases hm : w.isMuted = true
      · have hb : b = false := by
          cases b
          · rfl
          · exact absurd hm.symm hne
        rw [toggleMute_unmute hc hmg hm, hb]
        exact ⟨⟨hc, hmg, rfl⟩, rfl, rfl, rfl, rfl, rfl, rfl, rfl⟩
      · have hm' : w.isMuted = false := by
          simpa using hm
        have hb : b = true := by
          cases b
          · exact absurd hm'.symm hne
          · rfl
        rw [toggleMute_mute hc hmg hm', hb]
        refine ⟨⟨hc, hmg, rfl⟩, ?_, rfl, rfl, rfl, rfl, rfl, rfl⟩
        by_cases hg : w.masterGainValue > 1/1000
        · rw [if_pos hg, hga, if_neg hm]
        · rw [if_neg hg]
  | num q =>
    have ham : applyMute s w = w := by
      unfold applyMute
      rw [hsm]
    have hev : expMuted s w.isMuted = w.isMuted := by
      unfold expMuted
      rw [hsm]
    rw [ham, hev]
    exact ⟨⟨hc, hmg, hga⟩, rfl, rfl, rfl, rfl, rfl, rfl, rfl⟩
  | str t =>
    have ham : applyMute s w = w := by
      unfold applyMute
      rw [hsm]
    have hev : expMuted s w.isMuted = w.isMuted := by
      unfold expMuted
      rw [hsm]
    rw [ham, hev]
    exact ⟨⟨hc, hmg, hga⟩, rfl, rfl, rfl, rfl, rfl, rfl, rfl⟩
  | undef =>
    have ham : applyMute s w = w := by
      unfold applyMute
      rw [hsm]
    have hev : expMuted s w.isMuted = w.isMuted := by
      unfold expMuted
      rw [hsm]
    rw [ham, hev]
    exact ⟨⟨hc, hmg, hga⟩, rfl, rfl, rfl, rfl, rfl, rfl, rfl⟩

/-- The oscillator-type stage of `applySettings`. -/
theorem applyOscType_spec (s : JSettings) {w : World} (hl : Live w) :
    Live (applyOscType s w)
    ∧ ParamEq (applyOscType s w)
        { w with padOscType := expOsc s w.padOscType } := by
  obtain ⟨hc, hmg, hga⟩ := hl
  cases hst : s.padOscType with
  | str t =>
    have hao : applyOscType s w = setPadOscillatorType t w := by
      unfold applyOscType
      rw [hst]
    have hev : expOsc s w.padOscType
        = if t ∈ validOscTypes then t else w.padOscType := by
      unfold expOsc
      rw [hst]
    rw [hao, hev]
    unfold setPadOscillatorType
    by_cases hv : t ∈ validOscTypes
    · rw [if_pos hv, if_pos hv]
      exact ⟨⟨hc, hmg, hga⟩, rfl, rfl, rfl, rfl, rfl, rfl, rfl⟩
    · rw [if_neg hv, if_neg hv]
      exact ⟨⟨hc, hmg, hga⟩, rfl, rfl, rfl, rfl, rfl, rfl, rfl⟩
  | num q =>
    have hao : applyOscType s w = w := by
      unfold applyOscType
      rw [hst]
    have hev : expOsc s w.padOscType = w.padOscType := by
      unfold expOsc
      rw [hst]
    rw [hao, hev]
    exact ⟨⟨hc, hmg, hga⟩, rfl, rfl, rfl, rfl, rfl, rfl, rfl⟩
  | bool b =>
    have hao : applyOscType s w = w := by
      unfold applyOscType
      rw [hst]
    have hev : expOsc s w.padOscType = w.padOscType := by
      unfold expOsc
      rw [hst]
    rw [hao, hev]
    exact ⟨⟨hc, hmg, hga⟩, rfl, rfl, rfl, rfl, rfl, rfl, rfl⟩
  | undef =>
    have hao : applyOscType s w = w := by
      unfold applyOscType
      rw [hst]
    have hev : expOsc s w.padOscType = w.padOscType := by
      unfold expOsc
      rw [hst]
    rw [hao, hev]
    exact ⟨⟨hc, hmg, hga⟩, rfl, rfl, rfl, rfl, rfl, rfl, rfl⟩

/-- The filter-frequency stage of `applySettings`. -/
theorem applyFilterFreq_spec (s : JSettings) {w : World} (hl : Live w) :
    Live (applyFilterFreq s w)
    ∧ ParamEq (applyFilterFreq s w)
        { w with padFilterFreq := expFilter s w.padFilterFreq } := by
  obtain ⟨hc, hmg, hga⟩ := hl
  cases hsf : s.padFilterFreq with
  | num q =>
    have haf : applyFilterFreq s w = setPadFilterFrequency q w := by
      unfold applyFilterFreq
      rw [hsf]
    have hev : expFilter s w.padFilterFreq = max 100 (min 10000 q) := by
      unfold expFilter
      rw [hsf]
    rw [haf, hev]
    exact ⟨⟨hc, hmg, hga⟩, rfl, rfl, rfl, rfl, rfl, rfl, rfl⟩
  | bool b =>
    have haf : applyFilterFreq s w = w := by
      unfold applyFilterFreq
      rw [hsf]
    have hev : expFilter s w.padFilterFreq = w.padFilterFreq := by
      unfold expFilter
      rw [hsf]
    rw [haf, hev]
    exact ⟨⟨hc, hmg, hga⟩, rfl, rfl, rfl, rfl, rfl, rfl, rfl⟩
  | str t =>
    have haf : applyFilterFreq s w = w := by
      unfold applyFilterFreq
      rw [hsf]
    have hev : expFilter s w.padFilterFreq = w.padFilterFreq := by
      unfold expFilter
      rw [hsf]
    rw [haf, hev]
    exact ⟨⟨hc, hmg, hga⟩, rfl, rfl, rfl, rfl, rfl, rfl, rfl⟩
  | undef =>
    have haf : applyFilterFreq s w = w := by
      unfold applyFilterFreq
      rw [hsf]
    have hev : expFilter s w.padFilterFreq = w.padFilterFreq := by
      unfold expFilter
      rw [hsf]
    rw [haf, hev]
    exact ⟨⟨hc, hmg, hga⟩, rfl, rfl, rfl, rfl, rfl, rfl, rfl⟩

/-- The chord-speed stage of `applySettings`. -/
theorem applyChordSpeed_spec (s : JSettings) {w : World} (hl : Live w) :
    Live (applyChordSpeed s w)
    ∧ ParamEq (applyChordSpeed s w)
        { w with chordSpeedMs := expSpeed s w.chordSpeedMs } := by
  obtain ⟨hc, hmg, hga⟩ := hl
  cases hss : s.chordSpeedMs with
  | num q =>
    have has : applyChordSpeed s w = setChordSpeed q w := by
      unfold applyChordSpeed
      rw [hss]
    have hev : expSpeed s w.chordSpeedMs = max 4000 (min 30000 q) := by
      unfold expSpeed
      rw [hss]
    rw [has, hev]
    exact ⟨⟨hc, hmg, hga⟩, rfl, rfl, rfl, rfl, rfl, rfl, rfl⟩
  | bool b =>
    have has : applyChordSpeed s w = w := by
      unfold applyChordSpeed
      rw [hss]
    have hev : expSpeed s w.chordSpeedMs = w.chordSpeedMs := by
      unfold expSpeed
      rw [hss]
    rw [has, hev]
    exact ⟨⟨hc, hmg, hga⟩, rfl, rfl, rfl, rfl, rfl, rfl, rfl⟩
  | str t =>
    have has : applyChordSpeed s w = w := by
      unfold applyChordSpeed
      rw [hss]
    have hev : expSpeed s w.chordSpeedMs = w.chordSpeedMs := by
      unfold expSpeed
      rw [hss]
    rw [has, hev]
    exact ⟨⟨hc, hmg, hga⟩, rfl, rfl, rfl, rfl, rfl, rfl, rfl⟩
  | undef =>
    have has : applyChordSpeed s w = w := by
      unfold applyChordSpeed
      rw [hss]
    have hev : expSpeed s w.chordSpeedMs = w.chordSpeedMs := by
      unfold expSpeed
      rw [hss]
    rw [has, hev]
    exact ⟨⟨hc, hmg, hga⟩, rfl, rfl, rfl, rfl, rfl, rfl, rfl⟩

/-- The heartbeat stage of `applySettings`. -/
theorem applyHeartbeat_spec (s : JSettings) {w : World} (hl : Live w) :
    ∃ w', applyHeartbeat s w = some w' ∧ Live w'
      ∧ ParamEq w' { w with heartbeatEnabled := expHb s w.heartbeatEnabled } := by
  obtain ⟨hc, hmg, hga⟩ := hl
  cases hsh : s.heartbeatEnabled with
  | bool b =>
    have hah : applyHeartbeat s w
        = if b ≠ w.heartbeatEnabled then toggleHeartbeat w else some w := by
      unfold applyHeartbeat
      rw [hsh]
    have hev : expHb s w.heartbeatEnabled = b := by
      unfold expHb
      rw [hsh]
    rw [hah, hev]
    by_cases hne : b = w.heartbeatEnabled
    · rw [if_neg (by simp [hne]), hne]
      exact ⟨w, rfl, ⟨hc, hmg, hga⟩, rfl, rfl, rfl, rfl, rfl, rfl, rfl⟩
    · rw [if_pos hne]
      obtain ⟨w', he, hcore⟩ := toggleHeartbeat_run hc
      have hbn : (!w.heartbeatEnabled) = b := by
        cases b <;> cases hhb : w.heartbeatEnabled <;> simp_all
      refine ⟨w', he, ⟨hcore.ctx.trans hc, hcore.mg.trans hmg, ?_⟩,
        hcore.vol, hcore.muted, hcore.osc, hcore.filt, hcore.speed,
        hcore.hb.trans hbn, hcore.arp⟩
      rw [hcore.mgv, hcore.muted, hcore.vol]
      exact hga
  | num q =>
    have hah : applyHeartbeat s w = some w := by
      unfold applyHeartbeat
      rw [hsh]
    have hev : expHb s w.heartbeatEnabled = w.heartbeatEnabled := by
      unfold expHb
      rw [hsh]
    rw [hah, hev]
    exact ⟨w, rfl, ⟨hc, hmg, hga⟩, rfl, rfl, rfl, rfl, rfl, rfl, rfl⟩
  | str t =>
    have hah : applyHeartbeat s w = some w := by
      unfold applyHeartbeat
      rw [hsh]
    have hev : expHb s w.heartbeatEnabled = w.heartbeatEnabled := by
      unfold expHb
      rw [hsh]
    rw [hah, hev]
    exact ⟨w, rfl, ⟨hc, hmg, hga⟩, rfl, rfl, rfl, rfl, rfl, rfl, rfl⟩
  | undef =>
    have hah : applyHeartbeat s w = some w := by
      unfold applyHeartbeat
      rw [hsh]
    have hev : expHb s w.heartbeatEnabled = w.heartbeatEnabled := by
      unfold expHb
      rw [hsh]
    rw [hah, hev]
    exact ⟨w, rfl, ⟨hc, hmg, hga⟩, rfl, rfl, rfl, rfl, rfl, rfl, rfl⟩

/-- The arpeggiator stage of `applySettings`. -/
theorem applyArpeggiator_spec (s : JSettings) {w : World} (hl : Live w) :
    ∃ w', applyArpeggiator s w = some w' ∧ Live w'
      ∧ ParamEq w'
          { w with arpeggiatorEnabled := expArp s w.arpeggiatorEnabled } := by
  obtain ⟨hc, hmg, hga⟩ := hl
  cases hsa : s.arpeggiatorEnabled with
  | bool b =>
    have hah : applyArpeggiator s w
        = if b ≠ w.arpeggiatorEnabled then toggleArpeggiator w else some w := by
      unfold applyArpeggiator
      rw [hsa]
    have hev : expArp s w.arpeggiatorEnabled = b := by
      unfold expArp
      rw [hsa]
    rw [hah, hev]
    by_cases hne : b = w.arpeggiatorEnabled
    · rw [if_neg (by simp [hne]), hne]
      exact ⟨w, rfl, ⟨hc, hmg, hga⟩, rfl, rfl, rfl, rfl, rfl, rfl, rfl⟩
    · rw [if_pos hne]
      obtain ⟨w', he, hcore⟩ := toggleArpeggiator_run hc
      have hbn : (!w.arpeggiatorEnabled) = b := by
        cases b <;> cases hha : w.arpeggiatorEnabled <;> simp_all
      refine ⟨w', he, ⟨hcore.ctx.trans hc, hcore.mg.trans hmg, ?_⟩,
        hcore.vol, hcore.muted, hcore.osc, hcore.filt, hcore.speed,
        hcore.hb, hcore.arp.trans hbn⟩
      rw [hcore.mgv, hcore.muted, hcore.vol]
      exact hga
  | num q =>
    have hah : applyArpeggiator s w = some w := by
      unfold applyArpeggiator
      rw [hsa]
    have hev : expArp s w.arpeggiatorEnabled = w.arpeggiatorEnabled := by
      unfold expArp
      rw [hsa]
    rw [hah, hev]
    exact ⟨w, rfl, ⟨hc, hmg, hga⟩, rfl, rfl, rfl, rfl, rfl, rfl, rfl⟩
  | str t =>
    have hah : applyArpeggiator s w = some w := by
      unfold applyArpeggiator
      rw [hsa]
    have hev : expArp s w.arpeggiatorEnabled = w.arpeggiatorEnabled := by
      unfold expArp
      rw [hsa]
    rw [hah, hev]
    exact ⟨w, rfl, ⟨hc, hmg, hga⟩, rfl, rfl, rfl, rfl, rfl, rfl, rfl⟩
  | undef =>
    have hah : applyArpeggiator s w = some w := by
      unfold applyArpeggiator
      rw [hsa]
    have hev : expArp s w.arpeggiatorEnabled = w.arpeggiatorEnabled := by
      unfold expArp
      rw [hsa]
    rw [hah, hev]
    exact ⟨w, rfl, ⟨hc, hmg, hga⟩, rfl, rfl, rfl, rfl, rfl, rfl, rfl⟩

/-- Counterexample to C8 as stated: on the default start (zero tape), the
Texture layer has scheduled no pending timer at all — the claim asks for
at least one. -/
theorem startAmbient_texture_no_timer :
    ∃ w', startAmbient (fun _ => 0) true (initialWorld true ⟨false, none⟩)
        = some w'
      ∧ w'.pending.countP (fun p => layerOfCallback p.cb == "texture") = 0 := by
  obtain ⟨w', he, hmap, -, -⟩ := startAmbient_default_pending (fun _ => 0)
  refine ⟨w', he, ?_⟩
  rw [countP_layer_eq hmap]
  decide

/-- C10 (amended): `applySettings` with `null`/`undefined` returns at once
and changes nothing; with an object, on a live settled engine (audio
context already initialized, invariant state), every field that is absent
or of the wrong type is skipped — the corresponding engine state is
unchanged — while every correctly-typed field is applied (the volume and
the two numeric pad parameters clamped, an invalid oscillator-type string
rejected). -/
theorem applySettings_typed_fields :
    (∀ w : World, applySettings none w = some w)
    ∧ (∀ s : JSettings, ∀ w : World, Inv w → w.ctx = true →
        ∃ w', applySettings (some s) w = some w'
          ∧ w'.currentVolume = expVolume s w.currentVolume
          ∧ w'.isMuted = expMuted s w.isMuted
          ∧ w'.padOscType = expOsc s w.padOscType
          ∧ w'.padFilterFreq = expFilter s w.padFilterFreq
          ∧ w'.chordSpeedMs = expSpeed s w.chordSpeedMs
          ∧ w'.heartbeatEnabled = expHb s w.heartbeatEnabled
          ∧ w'.arpeggiatorEnabled = expArp s w.arpeggiatorEnabled) := by
  refine ⟨fun w => rfl, ?_⟩
  intro s w hI hc
  have hl : Live w := ⟨hc, hI.mgEq.trans hc, hI.gainSettled hc⟩
  obtain ⟨hl1, hp1⟩ := applyVolume_spec s hl
  obtain ⟨hl2, hp2⟩ := applyMute_spec s hl1
  obtain ⟨hl3, hp3⟩ := applyOscType_spec s hl2
  obtain ⟨hl4, hp4⟩ := applyFilterFreq_spec s hl3
  obtain ⟨hl5, hp5⟩ := applyChordSpeed_spec s hl4
  obtain ⟨w6, he6, hl6, hp6⟩ := applyHeartbeat_spec s hl5
  obtain ⟨w7, he7, hl7, hp7⟩ := applyArpeggiator_spec s hl6
  refine ⟨w7, ?_, ?_, ?_, ?_, ?_, ?_, ?_, ?_⟩
  · show (applyHeartbeat s (applyChordSpeed s (applyFilterFreq s (applyOscType s
      (applyMute s (applyVolume s w)))))).bind (applyArpeggiator s) = some w7
    rw [he6, Option.some_bind, he7]
  · exact hp7.vol.trans (hp6.vol.trans (hp5.vol.trans (hp4.vol.trans
      (hp3.vol.trans (hp2.vol.trans hp1.vol)))))
  · exact (hp7.muted.trans (hp6.muted.trans (hp5.muted.trans (hp4.muted.trans
      (hp3.muted.trans hp2.muted))))).trans (congrArg (expMuted s) hp1.muted)
  · exact (hp7.osc.trans (hp6.osc.trans (hp5.osc.trans (hp4.osc.trans
      hp3.osc)))).trans (congrArg (expOsc s) (hp2.osc.trans hp1.osc))
  · exact (hp7.filt.trans (hp6.filt.trans (hp5.filt.trans hp4.filt))).trans
      (congrArg (expFilter s) (hp3.filt.trans (hp2.filt.trans hp1.filt)))
  · exact (hp7.speed.trans (hp6.speed.trans hp5.speed)).trans
      (congrArg (expSpeed s) (hp4.speed.trans (hp3.speed.trans
        (hp2.speed.trans hp1.speed))))
  · exact (hp7.hb.trans hp6.hb).trans (congrArg (expHb s)
      (hp5.hb.trans (hp4.hb.trans (hp3.hb.trans (hp2.hb.trans hp1.hb)))))
  · exact hp7.arp.trans (congrArg (expArp s) (hp6.arp.trans (hp5.arp.trans
      (hp4.arp.trans (hp3.arp.trans (hp2.arp.trans hp1.arp))))))

/-- Counterexample to C10 as stated: on an engine whose context is not
yet initialized but whose persisted store says muted, applying a settings
object whose only typed field is the volume flips `isMuted` from false to
true — the skipped `isMuted` field did not leave the mute state
unchanged (the volume setter triggered `initAudio`, which loaded the
persisted mute flag). -/
theorem applySettings_skipped_mute_changed :
    s10.isMuted = JVal.undef
    ∧ c10World.isMuted = false
    ∧ (applySettings (some s10) c10World).map World.isMuted = some true := by
  decide

theorem applySettings_typed_fields_witness :
    applySettings none wPlaying = some wPlaying
    ∧ ∃ w', applySettings (some s10) wPlaying = some w'
      ∧ w'.currentVolume = expVolume s10 wPlaying.currentVolume
      ∧ w'.isMuted = expMuted s10 wPlaying.isMuted
      ∧ w'.padOscType = expOsc s10 wPlaying.padOscType
      ∧ w'.padFilterFreq = expFilter s10 wPlaying.padFilterFreq
      ∧ w'.chordSpeedMs = expSpeed s10 wPlaying.chordSpeedMs
      ∧ w'.heartbeatEnabled = expHb s10 wPlaying.heartbeatEnabled
      ∧ w'.arpeggiatorEnabled = expArp s10 wPlaying.arpeggiatorEnabled :=
  ⟨applySettings_typed_fields.1 wPlaying,
   applySettings_typed_fields.2 s10 wPlaying (by decide) (by decide)⟩

theorem applySettings_getSettings_roundtrip_witness :
    ∃ w', applySettings
        (some (getSettings (initialWorld true ⟨false, none⟩)).toJ)
        (initialWorld true ⟨false, none⟩) = some w'
      ∧ w'.currentVolume = (initialWorld true ⟨false, none⟩).currentVolume
      ∧ w'.isMuted = (initialWorld true ⟨false, none⟩).isMuted
      ∧ w'.padOscType = (initialWorld true ⟨false, none⟩).padOscType
      ∧ w'.padFilterFreq = (initialWorld true ⟨false, none⟩).padFilterFreq
      ∧ w'.chordSpeedMs = (initialWorld true ⟨false, none⟩).chordSpeedMs
      ∧ w'.heartbeatEnabled = (initialWorld true ⟨false, none⟩).heartbeatEnabled
      ∧ w'.arpeggiatorEnabled
        = (initialWorld true ⟨false, none⟩).arpeggiatorEnabled :=
  applySettings_getSettings_roundtrip _
    (Reachable.base true ⟨false, none⟩ (by decide))

end AmbientPlayer
